import Mathlib

/-!
# Packed data manager: reconstruction of the POS tables

A shallow embedding of `data_manager/packed/packed_data_manager.cc`
(`PackedDataManager::Impl`, `PackedDataManager` and the registry slot), of the
constructor in `data_manager/chromeos/chromeos_data_manager.cc`, and of the
`DataManager` state declared in `data_manager/data_manager.h`.

Conventions of the embedding.

* A C++ `string` / `StringPiece` is a `String`.
* A pointer into an owned array is the index of the cell it points to;
  `none` is `NULL`.  A `const char *` obtained from `s.data()` is identified
  with the string `s` it points to.
* A `unique_ptr<T[]>` is `Option (List T)`; `none` is the empty pointer.
* `new T[n]` gives `n` cells of indeterminate content.  The content is taken
  from the environment (`Env.junk_*`), so every statement proved below holds
  for all possible initial contents.
* `size_t` counters are natural numbers: every count below is bounded by the
  number of elements of a message held in memory.
* An assignment to a `uint16` lvalue stores the value modulo `2 ^ 16`.
* Code that is not part of the sources at hand is either a field of `Env` or a
  parameter, or a definition whose comment starts with `Modelled from the spec`.
* The loops that fill the two shared arrays are translated twice: plainly, and
  with a record of every store (`Traced`), the two being proved to agree.
-/

set_option linter.dupNamespace false

namespace mozc

/-- The state of `DataManager` (data_manager.h, private members). -/
structure DataManager where
  connection_data_ : String
  dictionary_data_ : String
  suggestion_filter_data_ : String
  collocation_data_ : String
  collocation_suppression_data_ : String
  pos_group_data_ : String
  boundary_data_ : String
  segmenter_compressed_lsize_ : Nat
  segmenter_compressed_rsize_ : Nat
  segmenter_ltable_ : String
  segmenter_rtable_ : String
  segmenter_bitarray_ : String
  counter_suffix_data_ : String
  suffix_key_array_data_ : String
  suffix_value_array_data_ : String
  suffix_token_array_data_ : String
  reading_correction_value_array_data_ : String
  reading_correction_error_array_data_ : String
  reading_correction_correction_array_data_ : String
  symbol_token_array_data_ : String
  symbol_string_array_data_ : String
  usage_base_conjugation_suffix_data_ : String
  usage_conjugation_suffix_data_ : String
  usage_conjugation_index_data_ : String
  usage_items_data_ : String
  usage_string_array_data_ : String
  deriving DecidableEq, Inhabited

/-- Modelled from the spec: `DataManager::InitFromArray` is declared in
data_manager.h (line 48) and defined in data_manager.cc, which is not part of
the sources at hand.  The spec of the blob decoder: the buffer must be at least
as long as the magic plus one fixed-size header, and its first bytes must equal
the magic exactly (ordinal byte comparison); on a mismatch the decode fails and
no section is exposed; on a match the fixed section directory is walked and each
section is bound to a sub-range of the buffer.  The header size and the
directory walk are parameters. -/
def DataManager.InitFromArray (kHeaderSize : Nat)
    (bindSections : DataManager → String → DataManager)
    (self : DataManager) (array magic : String) : Bool × DataManager :=
  if array.data.length < magic.data.length + kHeaderSize then
    (false, self)
  else if array.data.take magic.data.length ≠ magic.data then
    (false, self)
  else
    (true, bindSections self array)

namespace chromeos

/-- Members of `ChromeOsDataManager` (chromeos_data_manager.h, line 75). -/
structure ChromeOsDataManager where
  manager_ : DataManager
  deriving DecidableEq, Inhabited

/-- `const char kMagicNumber[] = MOZC_DATASET_MAGIC_NUMBER;`
(chromeos_data_manager.cc, line 60): the characters of the string literal the
build system defines, followed by the terminating NUL. -/
def kMagicNumber (MOZC_DATASET_MAGIC_NUMBER : String) : List Char :=
  MOZC_DATASET_MAGIC_NUMBER.data ++ [Char.ofNat 0]

/-- `arraysize(a)`: the number of elements of the array `a`. -/
def arraysize (a : List Char) : Nat :=
  a.length

/-- `StringPiece(ptr, len)`: the first `len` characters found at `ptr`. -/
def StringPiece (a : List Char) (len : Nat) : String :=
  String.mk (a.take len)

/-- Constructor `ChromeOsDataManager::ChromeOsDataManager()`,
chromeos_data_manager.cc lines 64-68.  `newDataManager` is the member `manager_`
as constructed, `kCrosMozcDataSet` stands for `LoadEmbeddedFile(kCrosMozcDataSet)`;
the result is `none` when the `CHECK` fails. -/
def ChromeOsDataManager.ChromeOsDataManager
    (InitFromArray : DataManager → String → String → Bool × DataManager)
    (newDataManager : DataManager) (MOZC_DATASET_MAGIC_NUMBER kCrosMozcDataSet : String) :
    Option ChromeOsDataManager :=
  let magic := StringPiece (kMagicNumber MOZC_DATASET_MAGIC_NUMBER)
    (arraysize (kMagicNumber MOZC_DATASET_MAGIC_NUMBER) - 1)
  let r := InitFromArray newDataManager kCrosMozcDataSet magic
  if r.1 then some { manager_ := r.2 } else none

end chromeos

namespace dictionary

/-- Modelled from the spec: `UserPOS::ConjugationType` is declared in
`dictionary/user_pos.h`, which is not part of the sources at hand.  The spec
describes a conjugation-form record as (key suffix ref, value suffix ref,
numeric id). -/
structure UserPOS.ConjugationType where
  key_suffix : Option String
  value_suffix : Option String
  id : Nat
  deriving DecidableEq, Inhabited

/-- Modelled from the spec: `UserPOS::POSToken` is declared in
`dictionary/user_pos.h`, which is not part of the sources at hand.  The spec
describes a POS-token record as a label reference plus the starting position
and count of its conjugation forms in the shared array, the reference being
null for an empty list. -/
structure UserPOS.POSToken where
  pos : Option String
  conjugation_size : Nat
  conjugation_form : Option Nat
  deriving DecidableEq, Inhabited

end dictionary

namespace packed

open dictionary

/-- Modelled from the spec: message `SystemDictionaryData.PosToken.ConjugationType`
of system_dictionary_data.proto, which is not part of the sources at hand.  The
spec lists an optional key-suffix string, an optional value-suffix string and an
integer id; the source reads them through `has_key_suffix()`, `key_suffix()`,
`has_value_suffix()`, `value_suffix()` and `id()`. -/
structure SystemDictionaryData.PosToken.ConjugationType where
  key_suffix : Option String
  value_suffix : Option String
  id : Nat
  deriving DecidableEq, Inhabited

/-- Modelled from the spec: message `SystemDictionaryData.PosToken`, an optional
label string and the repeated conjugation-form records. -/
structure SystemDictionaryData.PosToken where
  pos : Option String
  conjugation_forms : List SystemDictionaryData.PosToken.ConjugationType
  deriving DecidableEq, Inhabited

/-- Modelled from the spec: message
`SystemDictionaryData.PosMatcherData.RangeTable.Range`, a (lower, upper) integer
pair. -/
structure SystemDictionaryData.PosMatcherData.RangeTable.Range where
  lower : Nat
  upper : Nat
  deriving DecidableEq, Inhabited

/-- Modelled from the spec: message `SystemDictionaryData.PosMatcherData.RangeTable`,
the repeated (lower, upper) pairs of one table. -/
structure SystemDictionaryData.PosMatcherData.RangeTable where
  ranges : List SystemDictionaryData.PosMatcherData.RangeTable.Range
  deriving DecidableEq, Inhabited

/-- Modelled from the spec: message `SystemDictionaryData.PosMatcherData`, the
repeated `rule_id_table` integers and the repeated range-table records. -/
structure SystemDictionaryData.PosMatcherData where
  rule_id_table : List Nat
  range_tables : List SystemDictionaryData.PosMatcherData.RangeTable
  deriving DecidableEq, Inhabited

/-- Modelled from the spec: the packed container message of
system_dictionary_data.proto, with the fields the spec lists for the packed
container format; an optional field is an `Option`. -/
structure SystemDictionaryData where
  product_version : String
  format_version : Nat
  pos_tokens : List SystemDictionaryData.PosToken
  pos_matcher_data : SystemDictionaryData.PosMatcherData
  mozc_data : Option String
  mozc_data_magic : Option String
  deriving DecidableEq, Inhabited

namespace SystemDictionaryData

/-- Generated accessor `conjugation_forms_size()`. -/
def PosToken.conjugation_forms_size (t : PosToken) : Nat :=
  t.conjugation_forms.length

/-- Generated accessor `conjugation_forms(j)`. -/
def PosToken.conjugation_forms_at (t : PosToken) (j : Nat) : PosToken.ConjugationType :=
  t.conjugation_forms.getD j default

/-- Generated accessor `ranges_size()`. -/
def PosMatcherData.RangeTable.ranges_size (t : PosMatcherData.RangeTable) : Nat :=
  t.ranges.length

/-- Generated accessor `ranges(j)`. -/
def PosMatcherData.RangeTable.ranges_at (t : PosMatcherData.RangeTable) (j : Nat) :
    PosMatcherData.RangeTable.Range :=
  t.ranges.getD j default

/-- Generated accessor `rule_id_table_size()`. -/
def PosMatcherData.rule_id_table_size (m : PosMatcherData) : Nat :=
  m.rule_id_table.length

/-- Generated accessor `rule_id_table(i)`. -/
def PosMatcherData.rule_id_table_at (m : PosMatcherData) (i : Nat) : Nat :=
  m.rule_id_table.getD i 0

/-- Generated accessor `range_tables_size()`. -/
def PosMatcherData.range_tables_size (m : PosMatcherData) : Nat :=
  m.range_tables.length

/-- Generated accessor `range_tables(i)`. -/
def PosMatcherData.range_tables_at (m : PosMatcherData) (i : Nat) : PosMatcherData.RangeTable :=
  m.range_tables.getD i default

/-- Generated accessor `pos_tokens_size()`. -/
def pos_tokens_size (d : SystemDictionaryData) : Nat :=
  d.pos_tokens.length

/-- Generated accessor `pos_tokens(i)`. -/
def pos_tokens_at (d : SystemDictionaryData) (i : Nat) : PosToken :=
  d.pos_tokens.getD i default

/-- Generated accessor `has_mozc_data()`. -/
def has_mozc_data (d : SystemDictionaryData) : Bool :=
  d.mozc_data.isSome

/-- Generated accessor `mozc_data()`: the empty string when the field is unset. -/
def get_mozc_data (d : SystemDictionaryData) : String :=
  d.mozc_data.getD ""

/-- Generated accessor `mozc_data_magic()`: the empty string when the field is
unset. -/
def get_mozc_data_magic (d : SystemDictionaryData) : String :=
  d.mozc_data_magic.getD ""

end SystemDictionaryData

/-- State after `n` iterations of `for (size_t i = 0; i < n; ++i) body(i)`
started in state `s`. -/
def forLoop {σ : Type} (n : Nat) (body : Nat → σ → σ) (s : σ) : σ :=
  match n with
  | 0 => s
  | k + 1 => body k (forLoop k body s)

/-- The store `a[i].field = v`, given as the function `f` that replaces the
field in the cell.  (A store outside the array is undefined behaviour in the
source; here it leaves the array as it is, and the theorems show that every
cell they speak of lies inside the array.) -/
def update {α : Type} (a : List α) (i : Nat) (f : α → α) : List α :=
  match a[i]? with
  | some x => a.set i (f x)
  | none => a

/-- Default value of the total bytes limit: `64 << 20`. -/
def kDefaultTotalBytesLimit : Nat := 64 <<< 20

/-- Private `struct Range` of `PackedDataManager::Impl` (two `uint16`). -/
structure PackedDataManager.Impl.Range where
  lower : Nat
  upper : Nat
  deriving DecidableEq, Inhabited

/-- The matcher `PackedPOSMatcher(rule_id_table, range_table)`: it keeps the two
tables it is constructed from (a pointer to an array is identified with the
array). -/
structure PackedPOSMatcher where
  rule_id_table : List Nat
  range_table : List (Option Nat)
  deriving DecidableEq, Inhabited

/-- Members of `PackedDataManager::Impl`. -/
structure PackedDataManager.Impl where
  pos_token_ : Option (List UserPOS.POSToken)
  conjugation_array_ : Option (List UserPOS.ConjugationType)
  rule_id_table_ : Option (List Nat)
  range_tables_ : Option (List (Option Nat))
  range_table_items_ : Option (List PackedDataManager.Impl.Range)
  pos_matcher_ : Option PackedPOSMatcher
  system_dictionary_data_ : Option SystemDictionaryData
  manager_ : DataManager
  deriving DecidableEq, Inhabited

/-- Members of `PackedDataManager`. -/
structure PackedDataManager where
  manager_impl_ : Option PackedDataManager.Impl
  deriving DecidableEq, Inhabited

/-- What the translated code takes from outside `packed_data_manager.cc`:
the format-version constant (system_dictionary_format_version.h), the
`DataManager` constructor and `DataManager::InitFromArray` (data_manager.cc),
the protobuf parsers, and the indeterminate contents of freshly allocated
arrays. -/
structure Env where
  kSystemDictionaryFormatVersion : Nat
  newDataManager : DataManager
  InitFromArray : DataManager → String → String → Bool × DataManager
  ParseFromString : String → Bool × SystemDictionaryData
  ParseFromCodedStream : Nat → String → Bool × SystemDictionaryData
  junk_pos_token : UserPOS.POSToken
  junk_conjugation : UserPOS.ConjugationType
  junk_rule_id : Nat
  junk_range_table : Option Nat
  junk_range : PackedDataManager.Impl.Range

namespace PackedDataManager

namespace Impl

/-- Constructor `PackedDataManager::Impl::Impl() = default`. -/
def Impl (env : Env) : PackedDataManager.Impl :=
  { pos_token_ := none, conjugation_array_ := none, rule_id_table_ := none,
    range_tables_ := none, range_table_items_ := none, pos_matcher_ := none,
    system_dictionary_data_ := none, manager_ := env.newDataManager }

/-- Loop-carried state of the POS token loop (lines 185-218). -/
structure PosLoop where
  pos_token_ : List UserPOS.POSToken
  conjugation_array_ : List UserPOS.ConjugationType
  conjugation_index : Nat
  deriving DecidableEq

/-- Loop-carried state of the range table loop (lines 240-256). -/
structure RangeLoop where
  range_tables_ : List (Option Nat)
  range_table_items_ : List Range
  range_index : Nat
  deriving DecidableEq

/-- Body of the counting loop, lines 180-183. -/
def conjugationCountBody (data : SystemDictionaryData) (i : Nat) (conjugation_count : Nat) : Nat :=
  conjugation_count + (data.pos_tokens_at i).conjugation_forms_size

/-- Body of the inner loop over the conjugation forms of one token,
lines 200-217. -/
def conjugationFormBody (pos_token : SystemDictionaryData.PosToken) (j : Nat)
    (s : List UserPOS.ConjugationType × Nat) : List UserPOS.ConjugationType × Nat :=
  let conjugation_form := pos_token.conjugation_forms_at j
  let conjugation_array_ := s.1
  let conjugation_index := s.2
  let conjugation_array_ :=
    if conjugation_form.key_suffix.isSome then
      update conjugation_array_ conjugation_index
        (fun c => { c with key_suffix := conjugation_form.key_suffix })
    else
      update conjugation_array_ conjugation_index (fun c => { c with key_suffix := none })
  let conjugation_array_ :=
    if conjugation_form.value_suffix.isSome then
      update conjugation_array_ conjugation_index
        (fun c => { c with value_suffix := conjugation_form.value_suffix })
    else
      update conjugation_array_ conjugation_index (fun c => { c with value_suffix := none })
  let conjugation_array_ :=
    update conjugation_array_ conjugation_index (fun c => { c with id := conjugation_form.id })
  (conjugation_array_, conjugation_index + 1)

/-- Body of the POS token loop, lines 186-218. -/
def posTokenBody (data : SystemDictionaryData) (i : Nat) (s : PosLoop) : PosLoop :=
  let pos_token := data.pos_tokens_at i
  let pos_token_ :=
    if pos_token.pos.isSome then
      update s.pos_token_ i (fun t => { t with pos := pos_token.pos })
    else
      update s.pos_token_ i (fun t => { t with pos := none })
  let pos_token_ :=
    update pos_token_ i (fun t => { t with conjugation_size := pos_token.conjugation_forms_size })
  let pos_token_ :=
    update pos_token_ i (fun t => { t with conjugation_form := some s.conjugation_index })
  let pos_token_ :=
    if pos_token.conjugation_forms_size = 0 then
      update pos_token_ i (fun t => { t with conjugation_form := none })
    else pos_token_
  let r := forLoop pos_token.conjugation_forms_size (conjugationFormBody pos_token)
    (s.conjugation_array_, s.conjugation_index)
  { pos_token_ := pos_token_, conjugation_array_ := r.1, conjugation_index := r.2 }

/-- Body of the rule-id loop, lines 224-229: a store into a `uint16` cell. -/
def ruleIdBody (data : SystemDictionaryData) (i : Nat) (rule_id_table_ : List Nat) : List Nat :=
  rule_id_table_.set i (data.pos_matcher_data.rule_id_table_at i % 2 ^ 16)

/-- Body of the range counting loop, lines 235-237. -/
def rangeCountBody (pos_matcher_data : SystemDictionaryData.PosMatcherData) (i : Nat)
    (range_count : Nat) : Nat :=
  range_count + (pos_matcher_data.range_tables_at i).ranges_size

/-- Body of the inner loop over the ranges of one table, lines 246-252: two
stores into `uint16` fields. -/
def rangeBody (table : SystemDictionaryData.PosMatcherData.RangeTable) (j : Nat)
    (s : List Range × Nat) : List Range × Nat :=
  let range := table.ranges_at j
  let range_table_items_ := s.1
  let range_index := s.2
  let range_table_items_ :=
    update range_table_items_ range_index (fun r => { r with lower := range.lower % 2 ^ 16 })
  let range_table_items_ :=
    update range_table_items_ range_index (fun r => { r with upper := range.upper % 2 ^ 16 })
  (range_table_items_, range_index + 1)

/-- Body of the range table loop, lines 241-256. -/
def rangeTableBody (pos_matcher_data : SystemDictionaryData.PosMatcherData) (i : Nat)
    (s : RangeLoop) : RangeLoop :=
  let table := pos_matcher_data.range_tables_at i
  let range_tables_ := s.range_tables_.set i (some s.range_index)
  let r := forLoop table.ranges_size (rangeBody table) (s.range_table_items_, s.range_index)
  let range_table_items_ := r.1
  let range_index := r.2
  let range_table_items_ :=
    update range_table_items_ range_index (fun r => { r with lower := 0xFFFF % 2 ^ 16 })
  let range_table_items_ :=
    update range_table_items_ range_index (fun r => { r with upper := 0xFFFF % 2 ^ 16 })
  { range_tables_ := range_tables_, range_table_items_ := range_table_items_,
    range_index := range_index + 1 }

/-- `PackedDataManager::Impl::InitializeWithSystemDictionaryData`, lines 167-271.
The result is `none` when `system_dictionary_data_` is empty (the source
dereferences it), and otherwise the returned flag with the state left behind. -/
def InitializeWithSystemDictionaryData (env : Env) (self : PackedDataManager.Impl) :
    Option (Bool × PackedDataManager.Impl) :=
  match self.system_dictionary_data_ with
  | none => none
  | some data =>
    -- Checks format version.
    if data.format_version ≠ env.kSystemDictionaryFormatVersion then
      some (false, self)
    else
      -- Makes UserPOS data.
      let pos_token_ := List.replicate data.pos_tokens_size env.junk_pos_token
      let conjugation_count := forLoop data.pos_tokens_size (conjugationCountBody data) 0
      let conjugation_array_ := List.replicate conjugation_count env.junk_conjugation
      let pos := forLoop data.pos_tokens_size (posTokenBody data)
        { pos_token_ := pos_token_, conjugation_array_ := conjugation_array_,
          conjugation_index := 0 }
      -- Makes POSMatcher data.
      let rule_id_table_ := forLoop data.pos_matcher_data.rule_id_table_size (ruleIdBody data)
        (List.replicate data.pos_matcher_data.rule_id_table_size env.junk_rule_id)
      let pos_matcher_data := data.pos_matcher_data
      let range_tables_ := List.replicate pos_matcher_data.range_tables_size env.junk_range_table
      let range_count :=
        forLoop pos_matcher_data.range_tables_size (rangeCountBody pos_matcher_data) 0
      let range_table_items_ :=
        List.replicate (range_count + pos_matcher_data.range_tables_size) env.junk_range
      let rng := forLoop pos_matcher_data.range_tables_size (rangeTableBody pos_matcher_data)
        { range_tables_ := range_tables_, range_table_items_ := range_table_items_,
          range_index := 0 }
      -- Makes POSMatcher.
      let pos_matcher_ : PackedPOSMatcher :=
        { rule_id_table := rule_id_table_, range_table := rng.range_tables_ }
      let self : PackedDataManager.Impl :=
        { self with
          pos_token_ := some pos.pos_token_
          conjugation_array_ := some pos.conjugation_array_
          rule_id_table_ := some rule_id_table_
          range_tables_ := some rng.range_tables_
          range_table_items_ := some rng.range_table_items_
          pos_matcher_ := some pos_matcher_ }
      -- Initialize |manager_| (PackedDataManager for light doesn't have mozc data).
      if data.has_mozc_data then
        let r := env.InitFromArray self.manager_ data.get_mozc_data data.get_mozc_data_magic
        if !r.1 then
          some (false, { self with manager_ := r.2 })
        else
          some (true, { self with manager_ := r.2 })
      else
        some (true, self)

/-- `PackedDataManager::Impl::Init`, lines 136-143. -/
def Init (env : Env) (self : PackedDataManager.Impl) (system_dictionary_data : String) :
    Option (Bool × PackedDataManager.Impl) :=
  let parsed := env.ParseFromString system_dictionary_data
  let self := { self with system_dictionary_data_ := some parsed.2 }
  if !parsed.1 then
    some (false, self)
  else
    InitializeWithSystemDictionaryData env self

/-- `PackedDataManager::Impl::InitWithZippedData`, lines 145-161: the gzip and
coded streams with the total bytes limit are the parser
`Env.ParseFromCodedStream`. -/
def InitWithZippedData (env : Env) (self : PackedDataManager.Impl)
    (zipped_system_dictionary_data : String) : Option (Bool × PackedDataManager.Impl) :=
  let parsed := env.ParseFromCodedStream kDefaultTotalBytesLimit zipped_system_dictionary_data
  let self := { self with system_dictionary_data_ := some parsed.2 }
  if !parsed.1 then
    some (false, self)
  else
    InitializeWithSystemDictionaryData env self

end Impl

/-- `PackedDataManager::Init`, lines 380-388. -/
def Init (env : Env) (self : PackedDataManager) (system_dictionary_data : String) :
    Option (Bool × PackedDataManager) :=
  let self : PackedDataManager := { self with manager_impl_ := some (Impl.Impl env) }
  match Impl.Init env (Impl.Impl env) system_dictionary_data with
  | none => none
  | some (true, impl) => some (true, { self with manager_impl_ := some impl })
  | some (false, _) => some (false, { self with manager_impl_ := none })

/-- `PackedDataManager::InitWithZippedData`, lines 390-399. -/
def InitWithZippedData (env : Env) (self : PackedDataManager)
    (zipped_system_dictionary_data : String) : Option (Bool × PackedDataManager) :=
  let self : PackedDataManager := { self with manager_impl_ := some (Impl.Impl env) }
  match Impl.InitWithZippedData env (Impl.Impl env) zipped_system_dictionary_data with
  | none => none
  | some (true, impl) => some (true, { self with manager_impl_ := some impl })
  | some (false, _) => some (false, { self with manager_impl_ := none })

end PackedDataManager

/-! ## The parsers of the container -/

/-- Modelled from the spec: the protobuf parsers of the container are not part
of the sources at hand.  The spec: the message is parsed with a byte-budget
guard that rejects bodies larger than a configured total-size ceiling.  `decode`
is the wire decoding of a body; a rejected body leaves the fresh message. -/
def budgetParse (decode : String → Bool × SystemDictionaryData) (limit : Nat)
    (body : String) : Bool × SystemDictionaryData :=
  if limit < body.length then (false, default) else decode body

/-- Modelled from the spec: the ceiling of the raw-bytes entry, which sets none
itself: the ceiling defaults to 64 MiB (the source comment at lines 58-59 says
the same of the protobuf library). -/
def kProtobufTotalBytesLimit : Nat := 64 * 2 ^ 20

/-- Modelled from the spec: `ParseFromString`, the raw-bytes variant, under the
default ceiling. -/
def specParseFromString (decode : String → Bool × SystemDictionaryData)
    (body : String) : Bool × SystemDictionaryData :=
  budgetParse decode kProtobufTotalBytesLimit body

/-- Modelled from the spec: `ParseFromCodedStream` over the gzip stream, the
compressed variant: a streaming ungzip-then-decode path with the configured
ceiling applied to the decoded body.  `ungzip` is the decompression, `none` for
a corrupt stream. -/
def specParseFromCodedStream (ungzip : String → Option String)
    (decode : String → Bool × SystemDictionaryData) (limit : Nat) (zipped : String) :
    Bool × SystemDictionaryData :=
  match ungzip zipped with
  | none => (false, default)
  | some body => budgetParse decode limit body

/-- An environment whose two parsers are the ones modelled from the spec. -/
def withBudgetParsers (env : Env) (ungzip : String → Option String)
    (decode : String → Bool × SystemDictionaryData) : Env :=
  { env with
    ParseFromString := specParseFromString decode
    ParseFromCodedStream := specParseFromCodedStream ungzip decode }

/-- An environment whose nested decoder is the one modelled from the spec. -/
def withBlobDecoder (env : Env) (kHeaderSize : Nat)
    (bindSections : DataManager → String → DataManager) : Env :=
  { env with InitFromArray := DataManager.InitFromArray kHeaderSize bindSections }

/-! ## The registry slot -/

/-- Process-wide state of packed_data_manager.cc: the slot `g_data_manager`
(line 70; `none` is the empty pointer, `some p` owns the instance `p`) and the
flag `FLAGS_dataset` (line 46). -/
structure Globals where
  g_data_manager : Option PackedDataManager
  FLAGS_dataset : String
  deriving DecidableEq, Inhabited

/-- Modelled from the spec: `LOG(FATAL)` and `CHECK` come from base/logging.h,
which is not part of the sources at hand; the spec describes both as fatal
(process-terminating).  A call either terminates the process, in the global
state reached at that point, or returns a value and the global state. -/
inductive Outcome (α : Type) where
  | fatal (g : Globals)
  | returned (value : α) (g : Globals)
  deriving DecidableEq

/-- `RegisterPackedDataManager`, lines 534-536: `g_data_manager.reset(p)`. -/
def RegisterPackedDataManager (g : Globals) (packed_data_manager : Option PackedDataManager) :
    Globals :=
  { g with g_data_manager := packed_data_manager }

/-- `GetPackedDataManager`, lines 538-540: the pointer held by the slot, and the
global state after the call. -/
def GetPackedDataManager (g : Globals) : Option PackedDataManager × Globals :=
  (g.g_data_manager, g)

namespace PackedDataManager

/-- Constructor `PackedDataManager::PackedDataManager()`, lines 374-375. -/
def PackedDataManager : mozc.packed.PackedDataManager :=
  { manager_impl_ := none }

/-- `PackedDataManager::GetUserPosManager`, lines 409-430.  `Mmap_Open path` is
`Mmap::Open(path, "r")` followed by the copy of the mapped bytes (base/mmap.h):
`none` when the file cannot be mapped.  The result is `none` only if
`PackedDataManager::Init` has none. -/
def GetUserPosManager (env : Env) (Mmap_Open : String → Option String) (g : Globals) :
    Option (Outcome mozc.packed.PackedDataManager) :=
  let body : Option (Outcome Unit) :=
    if g.g_data_manager.isNone then
      if g.FLAGS_dataset = "" then
        -- LOG(FATAL)
        some (Outcome.fatal g)
      else
        let data_manager := PackedDataManager
        match Mmap_Open g.FLAGS_dataset with
        | none =>
          -- CHECK(mmap.Open(...))
          some (Outcome.fatal g)
        | some buffer =>
          match Init env data_manager buffer with
          | none => none
          | some (true, data_manager) =>
            some (Outcome.returned () (RegisterPackedDataManager g (some data_manager)))
          | some (false, _) => some (Outcome.returned () g)
    else
      some (Outcome.returned () g)
  match body with
  | none => none
  | some (Outcome.fatal g) => some (Outcome.fatal g)
  | some (Outcome.returned _ g) =>
    -- CHECK(g_data_manager.get())
    match g.g_data_manager with
    | none => some (Outcome.fatal g)
    | some p => some (Outcome.returned p g)

end PackedDataManager

/-! ## The table loops with a record of their stores -/

/-- An owned array together with the record of the stores made to it: one entry
(cell index, field) for each store, in program order. -/
structure Traced (α φ : Type) where
  cells : List α
  log : List (Nat × φ)

/-- The store `a[i].field = v` on a recorded array: the store of `update`, and
the pair `(i, field)` appended to the record. -/
def Traced.store {α φ : Type} (a : Traced α φ) (i : Nat) (field : φ) (f : α → α) :
    Traced α φ :=
  { cells := update a.cells i f, log := a.log ++ [(i, field)] }

/-- The fields of `UserPOS::ConjugationType` the POS token loop stores to. -/
inductive ConjugationField where
  | key_suffix
  | value_suffix
  | id
  deriving DecidableEq

/-- The fields of `Range` the range table loop stores to. -/
inductive RangeField where
  | lower
  | upper
  deriving DecidableEq

namespace PackedDataManager.Impl

/-- Loop-carried state of the POS token loop, the conjugation array recorded. -/
structure PosLoopTraced where
  pos_token_ : List UserPOS.POSToken
  conjugation_array_ : Traced UserPOS.ConjugationType ConjugationField
  conjugation_index : Nat

/-- Loop-carried state of the range table loop, the range array recorded. -/
structure RangeLoopTraced where
  range_tables_ : List (Option Nat)
  range_table_items_ : Traced Range RangeField
  range_index : Nat

/-- Body of the inner loop over the conjugation forms, lines 200-217, every
store to `conjugation_array_` recorded. -/
def conjugationFormBodyTraced (pos_token : SystemDictionaryData.PosToken) (j : Nat)
    (s : Traced UserPOS.ConjugationType ConjugationField × Nat) :
    Traced UserPOS.ConjugationType ConjugationField × Nat :=
  let conjugation_form := pos_token.conjugation_forms_at j
  let conjugation_array_ := s.1
  let conjugation_index := s.2
  let conjugation_array_ :=
    if conjugation_form.key_suffix.isSome then
      conjugation_array_.store conjugation_index ConjugationField.key_suffix
        (fun c => { c with key_suffix := conjugation_form.key_suffix })
    else
      conjugation_array_.store conjugation_index ConjugationField.key_suffix
        (fun c => { c with key_suffix := none })
  let conjugation_array_ :=
    if conjugation_form.value_suffix.isSome then
      conjugation_array_.store conjugation_index ConjugationField.value_suffix
        (fun c => { c with value_suffix := conjugation_form.value_suffix })
    else
      conjugation_array_.store conjugation_index ConjugationField.value_suffix
        (fun c => { c with value_suffix := none })
  let conjugation_array_ :=
    conjugation_array_.store conjugation_index ConjugationField.id
      (fun c => { c with id := conjugation_form.id })
  (conjugation_array_, conjugation_index + 1)

/-- Body of the POS token loop, lines 186-218, every store to
`conjugation_array_` recorded. -/
def posTokenBodyTraced (data : SystemDictionaryData) (i : Nat) (s : PosLoopTraced) :
    PosLoopTraced :=
  let pos_token := data.pos_tokens_at i
  let pos_token_ :=
    if pos_token.pos.isSome then
      update s.pos_token_ i (fun t => { t with pos := pos_token.pos })
    else
      update s.pos_token_ i (fun t => { t with pos := none })
  let pos_token_ :=
    update pos_token_ i (fun t => { t with conjugation_size := pos_token.conjugation_forms_size })
  let pos_token_ :=
    update pos_token_ i (fun t => { t with conjugation_form := some s.conjugation_index })
  let pos_token_ :=
    if pos_token.conjugation_forms_size = 0 then
      update pos_token_ i (fun t => { t with conjugation_form := none })
    else pos_token_
  let r := forLoop pos_token.conjugation_forms_size (conjugationFormBodyTraced pos_token)
    (s.conjugation_array_, s.conjugation_index)
  { pos_token_ := pos_token_, conjugation_array_ := r.1, conjugation_index := r.2 }

/-- Body of the inner loop over the ranges of one table, lines 246-252, every
store to `range_table_items_` recorded. -/
def rangeBodyTraced (table : SystemDictionaryData.PosMatcherData.RangeTable) (j : Nat)
    (s : Traced Range RangeField × Nat) : Traced Range RangeField × Nat :=
  let range := table.ranges_at j
  let range_table_items_ := s.1
  let range_index := s.2
  let range_table_items_ :=
    range_table_items_.store range_index RangeField.lower
      (fun r => { r with lower := range.lower % 2 ^ 16 })
  let range_table_items_ :=
    range_table_items_.store range_index RangeField.upper
      (fun r => { r with upper := range.upper % 2 ^ 16 })
  (range_table_items_, range_index + 1)

/-- Body of the range table loop, lines 241-256, every store to
`range_table_items_` recorded. -/
def rangeTableBodyTraced (pos_matcher_data : SystemDictionaryData.PosMatcherData) (i : Nat)
    (s : RangeLoopTraced) : RangeLoopTraced :=
  let table := pos_matcher_data.range_tables_at i
  let range_tables_ := s.range_tables_.set i (some s.range_index)
  let r := forLoop table.ranges_size (rangeBodyTraced table)
    (s.range_table_items_, s.range_index)
  let range_table_items_ := r.1
  let range_index := r.2
  let range_table_items_ :=
    range_table_items_.store range_index RangeField.lower
      (fun r => { r with lower := 0xFFFF % 2 ^ 16 })
  let range_table_items_ :=
    range_table_items_.store range_index RangeField.upper
      (fun r => { r with upper := 0xFFFF % 2 ^ 16 })
  { range_tables_ := range_tables_, range_table_items_ := range_table_items_,
    range_index := range_index + 1 }

/-- Lines 177-218 as `InitializeWithSystemDictionaryData` runs them: the two
allocations, the counting loop and the POS token loop, with the stores to the
fresh conjugation array recorded. -/
def posTokenLoopTraced (env : Env) (data : SystemDictionaryData) : PosLoopTraced :=
  let pos_token_ := List.replicate data.pos_tokens_size env.junk_pos_token
  let conjugation_count := forLoop data.pos_tokens_size (conjugationCountBody data) 0
  let conjugation_array_ : Traced UserPOS.ConjugationType ConjugationField :=
    { cells := List.replicate conjugation_count env.junk_conjugation, log := [] }
  forLoop data.pos_tokens_size (posTokenBodyTraced data)
    { pos_token_ := pos_token_, conjugation_array_ := conjugation_array_,
      conjugation_index := 0 }

/-- Lines 230-256 as `InitializeWithSystemDictionaryData` runs them: the two
allocations, the counting loop and the range table loop, with the stores to the
fresh range array recorded. -/
def rangeTableLoopTraced (env : Env) (data : SystemDictionaryData) : RangeLoopTraced :=
  let pos_matcher_data := data.pos_matcher_data
  let range_tables_ := List.replicate pos_matcher_data.range_tables_size env.junk_range_table
  let range_count :=
    forLoop pos_matcher_data.range_tables_size (rangeCountBody pos_matcher_data) 0
  let range_table_items_ : Traced Range RangeField :=
    { cells := List.replicate (range_count + pos_matcher_data.range_tables_size) env.junk_range,
      log := [] }
  forLoop pos_matcher_data.range_tables_size (rangeTableBodyTraced pos_matcher_data)
    { range_tables_ := range_tables_, range_table_items_ := range_table_items_,
      range_index := 0 }

end PackedDataManager.Impl

/-- The state of the POS token loop without the record of the stores. -/
def PackedDataManager.Impl.PosLoopTraced.erase (s : PackedDataManager.Impl.PosLoopTraced) :
    PackedDataManager.Impl.PosLoop :=
  { pos_token_ := s.pos_token_, conjugation_array_ := s.conjugation_array_.cells,
    conjugation_index := s.conjugation_index }

/-- The state of the range table loop without the record of the stores. -/
def PackedDataManager.Impl.RangeLoopTraced.erase (s : PackedDataManager.Impl.RangeLoopTraced) :
    PackedDataManager.Impl.RangeLoop :=
  { range_tables_ := s.range_tables_, range_table_items_ := s.range_table_items_.cells,
    range_index := s.range_index }

/-- The fields of a conjugation cell in the order the inner loop stores them. -/
def conjugationFields : List ConjugationField :=
  [ConjugationField.key_suffix, ConjugationField.value_suffix, ConjugationField.id]

/-- The fields of a range cell in the order the loops store them. -/
def rangeFields : List RangeField :=
  [RangeField.lower, RangeField.upper]

/-- The record of a run that stores to the cells `0, 1, ..., n - 1` in this
order, and in each cell to every field of `fields` in their order. -/
def storesUpTo {φ : Type} (fields : List φ) (n : Nat) : List (Nat × φ) :=
  match n with
  | 0 => []
  | k + 1 => storesUpTo fields k ++ fields.map (fun f => (k, f))

/-! ## Cell values named in the loop invariants -/

namespace PackedDataManager.Impl

/-- The cell the inner loop writes for one conjugation form of the container. -/
def conjugationCell (f : SystemDictionaryData.PosToken.ConjugationType) : UserPOS.ConjugationType :=
  { key_suffix := f.key_suffix, value_suffix := f.value_suffix, id := f.id }

/-- The cell the POS token loop writes for a token of the container whose
conjugation forms start at `idx`. -/
def posTokenCell (t : SystemDictionaryData.PosToken) (idx : Nat) : UserPOS.POSToken :=
  { pos := t.pos, conjugation_size := t.conjugation_forms_size,
    conjugation_form := if t.conjugation_forms_size = 0 then none else some idx }

/-- The cell the inner range loop writes for one range of the container: both
bounds are stored in `uint16` fields. -/
def rangeCell (r : SystemDictionaryData.PosMatcherData.RangeTable.Range) : Range :=
  { lower := r.lower % 2 ^ 16, upper := r.upper % 2 ^ 16 }

/-- The terminator pair `(0xFFFF, 0xFFFF)`. -/
def sentinel : Range := { lower := 0xFFFF, upper := 0xFFFF }

end PackedDataManager.Impl

/-! ## Concrete inputs -/

/-- A concrete environment: expected format version 1, a nested decoder that
accepts exactly the magic `MOZC` and binds the connection data, a raw parser
that accepts one byte string, and recognisable contents for fresh arrays. -/
def sampleEnv : Env :=
  { kSystemDictionaryFormatVersion := 1
    newDataManager := default
    InitFromArray := fun m array magic =>
      if magic = "MOZC" then (true, { m with connection_data_ := array }) else (false, m)
    ParseFromString := fun s =>
      if s = "packed" then
        (true, { product_version := "v", format_version := 1, pos_tokens := [],
                 pos_matcher_data := { rule_id_table := [], range_tables := [] },
                 mozc_data := none, mozc_data_magic := none })
      else (false, default)
    ParseFromCodedStream := fun _ _ => (false, default)
    junk_pos_token := { pos := some "?", conjugation_size := 99, conjugation_form := some 77 }
    junk_conjugation := { key_suffix := some "?", value_suffix := some "?", id := 55 }
    junk_rule_id := 4242
    junk_range_table := some 1000
    junk_range := { lower := 1, upper := 2 } }

/-- A container of format version 1 with four POS tokens (2, 0, 1 and 0 forms),
three range tables (2, 0 and 1 ranges) and a nested payload. -/
def sampleData : SystemDictionaryData :=
  { product_version := "v"
    format_version := 1
    pos_tokens :=
      [{ pos := some "a", conjugation_forms :=
          [{ key_suffix := some "k", value_suffix := none, id := 3 },
           { key_suffix := none, value_suffix := some "v", id := 4 }] },
       { pos := none, conjugation_forms := [] },
       { pos := some "c", conjugation_forms :=
          [{ key_suffix := none, value_suffix := none, id := 9 }] },
       { pos := some "z", conjugation_forms := [] }]
    pos_matcher_data :=
      { rule_id_table := [1, 65536, 70000]
        range_tables :=
          [{ ranges := [{ lower := 1, upper := 2 }, { lower := 5, upper := 65537 }] },
           { ranges := [] },
           { ranges := [{ lower := 7, upper := 8 }] }] }
    mozc_data := some "MOZCdata"
    mozc_data_magic := some "MOZC" }

/-- The container `sampleData` without its nested payload. -/
def lightData : SystemDictionaryData :=
  { sampleData with mozc_data := none }

/-- The container `sampleData` with another format version. -/
def staleData : SystemDictionaryData :=
  { sampleData with format_version := 2 }

/-- A container of format version 1 whose only range table holds the single
range `(0xFFFF, 0xFFFF)`. -/
def sentinelRangeData : SystemDictionaryData :=
  { product_version := "v"
    format_version := 1
    pos_tokens := []
    pos_matcher_data :=
      { rule_id_table := []
        range_tables := [{ ranges := [{ lower := 0xFFFF, upper := 0xFFFF }] }] }
    mozc_data := none
    mozc_data_magic := none }

/-- A freshly constructed `Impl` whose `system_dictionary_data_` holds `data`. -/
def sampleImpl (data : SystemDictionaryData) : PackedDataManager.Impl :=
  { PackedDataManager.Impl.Impl sampleEnv with system_dictionary_data_ := some data }

/-- The environment `sampleEnv` with parsers that accept the raw bytes `raw` and
the compressed bytes `gz`, both yielding `sampleData`. -/
def sampleZipEnv : Env :=
  { sampleEnv with
    ParseFromString := fun s => if s = "raw" then (true, sampleData) else (false, default)
    ParseFromCodedStream := fun _ z => if z = "gz" then (true, sampleData) else (false, default) }

/-- A file system with one mappable file, whose bytes the parser of `sampleEnv`
accepts. -/
def sampleMmapOpen : String → Option String :=
  fun path => if path = "mozc.data" then some "packed" else none

/-- Global state with an empty slot and the dataset flag naming the mappable
file. -/
def sampleGlobals : Globals :=
  { g_data_manager := none, FLAGS_dataset := "mozc.data" }

/-- A directory walk that binds the whole buffer as the connection data. -/
def sampleBindSections : DataManager → String → DataManager :=
  fun m array => { m with connection_data_ := array }

/-- A body of 64 MiB plus one byte. -/
def oversizedBody : String :=
  String.mk (List.replicate 67108865 'a')

/-- A decompression that maps the compressed bytes `gz` to `oversizedBody`. -/
def sampleUngzip : String → Option String :=
  fun zipped => if zipped = "gz" then some oversizedBody else none

/-- A container of format version 1 whose nested payload `XOZCdata` differs from
the blob `MOZCdata` in its first byte only. -/
def brokenMagicData : SystemDictionaryData :=
  { sampleData with mozc_data := some "XOZCdata" }

/-! ## Stores and loops -/

theorem forLoop_succ {σ : Type} (n : Nat) (body : Nat → σ → σ) (s : σ) :
    forLoop (n + 1) body s = body n (forLoop n body s) := rfl

theorem update_length {α : Type} (a : List α) (i : Nat) (f : α → α) :
    (update a i f).length = a.length := by
  unfold update
  split <;> simp

theorem getElem?_update_self {α : Type} (a : List α) (i : Nat) (f : α → α) (x : α)
    (h : a[i]? = some x) : (update a i f)[i]? = some (f x) := by
  have hi : i < a.length := by
    by_contra hc
    rw [List.getElem?_eq_none (Nat.le_of_not_lt hc)] at h
    cases h
  unfold update
  rw [h]
  simp [List.getElem?_set_self hi]

theorem getElem?_update_ne {α : Type} (a : List α) (i j : Nat) (f : α → α) (h : i ≠ j) :
    (update a i f)[j]? = a[j]? := by
  unfold update
  split
  · exact List.getElem?_set_ne h
  · rfl

theorem getElem?_update_cell {α : Type} (a : List α) (i : Nat) (f : α → α) (h : i < a.length) :
    ∃ x, a[i]? = some x ∧ (update a i f)[i]? = some (f x) :=
  ⟨a[i], List.getElem?_eq_getElem h, getElem?_update_self a i f _ (List.getElem?_eq_getElem h)⟩

theorem update_update {α : Type} (a : List α) (i : Nat) (f g : α → α) :
    update (update a i f) i g = update a i (fun x => g (f x)) := by
  by_cases hi : i < a.length
  · have h1 : a[i]? = some a[i] := List.getElem?_eq_getElem hi
    have h3 : update a i f = a.set i (f a[i]) := by unfold update; rw [h1]
    have h4 : update a i (fun x => g (f x)) = a.set i (g (f a[i])) := by unfold update; rw [h1]
    have h5 : update (a.set i (f a[i])) i g = (a.set i (f a[i])).set i (g (f a[i])) := by
      unfold update
      rw [List.getElem?_set_self hi]
    rw [h3, h5, h4, List.set_set]
  · have h1 : a[i]? = none := List.getElem?_eq_none (Nat.le_of_not_lt hi)
    have h2 : update a i f = a := by unfold update; rw [h1]
    rw [h2]
    unfold update
    rw [h1]

theorem sum_range_le_of_le (k : Nat → Nat) {n m : Nat} (h : n ≤ m) :
    ∑ i ∈ Finset.range n, k i ≤ ∑ i ∈ Finset.range m, k i :=
  Finset.sum_le_sum_of_subset (Finset.range_mono h)

theorem getD_of_getElem? {α : Type} (l : List α) (i : Nat) (d x : α) (h : l[i]? = some x) :
    l.getD i d = x := by
  simp [List.getD_eq_getElem?_getD, h]

theorem lt_length_of_getElem? {α : Type} (l : List α) (i : Nat) (x : α) (h : l[i]? = some x) :
    i < l.length := by
  by_contra hc
  rw [List.getElem?_eq_none (Nat.le_of_not_lt hc)] at h
  cases h

/-- A sum over the first `n` indices of a list, read through `getD`, is the sum
over the first `n` elements. -/
theorem sum_range_getD {α : Type} (l : List α) (d : α) (f : α → Nat) (n : Nat)
    (hn : n ≤ l.length) :
    ∑ i ∈ Finset.range n, f (l.getD i d) = ((l.take n).map f).sum := by
  induction n with
  | zero => simp
  | succ n ih =>
    have hlt : n < l.length := hn
    have htake : l.take (n + 1) = l.take n ++ [l[n]] := by
      rw [List.take_succ, List.getElem?_eq_getElem hlt]
      rfl
    rw [Finset.sum_range_succ, ih (by omega), htake, List.map_append, List.sum_append,
      getD_of_getElem? l n d _ (List.getElem?_eq_getElem hlt)]
    simp

namespace PackedDataManager.Impl

/-- Both branches of the `has_key_suffix` / `has_value_suffix` tests store the
optional field as it is. -/
theorem conjugationFormBody_eq (t : SystemDictionaryData.PosToken) (j : Nat)
    (s : List UserPOS.ConjugationType × Nat) :
    conjugationFormBody t j s =
      (update (update (update s.1 s.2
          (fun c => { c with key_suffix := (t.conjugation_forms_at j).key_suffix })) s.2
          (fun c => { c with value_suffix := (t.conjugation_forms_at j).value_suffix })) s.2
          (fun c => { c with id := (t.conjugation_forms_at j).id }), s.2 + 1) := by
  unfold conjugationFormBody
  dsimp only
  cases hk : (t.conjugation_forms_at j).key_suffix <;>
    cases hv : (t.conjugation_forms_at j).value_suffix <;> simp

theorem conjugationFormBody_snd (t : SystemDictionaryData.PosToken) (j : Nat)
    (s : List UserPOS.ConjugationType × Nat) : (conjugationFormBody t j s).2 = s.2 + 1 := rfl

theorem conjugationFormBody_length (t : SystemDictionaryData.PosToken) (j : Nat)
    (s : List UserPOS.ConjugationType × Nat) :
    (conjugationFormBody t j s).1.length = s.1.length := by
  simp [conjugationFormBody_eq, update_length]

theorem conjugationFormBody_frame (t : SystemDictionaryData.PosToken) (j : Nat)
    (s : List UserPOS.ConjugationType × Nat) (p : Nat) (h : s.2 ≠ p) :
    (conjugationFormBody t j s).1[p]? = s.1[p]? := by
  simp [conjugationFormBody_eq, getElem?_update_ne _ _ _ _ h]

theorem conjugationFormBody_cell (t : SystemDictionaryData.PosToken) (j : Nat)
    (s : List UserPOS.ConjugationType × Nat) (h : s.2 < s.1.length) :
    (conjugationFormBody t j s).1[s.2]? = some (conjugationCell (t.conjugation_forms_at j)) := by
  obtain ⟨x, hx, -⟩ := getElem?_update_cell s.1 s.2 id h
  rw [conjugationFormBody_eq]
  simp [conjugationCell, getElem?_update_self _ _ _ _ (getElem?_update_self _ _ _ _
      (getElem?_update_self _ _ _ _ hx))]

/-- Inner loop over the conjugation forms of one token: after `m` iterations
the index has advanced by `m`, the array has kept its length, the cells outside
`[idx, idx + m)` are untouched and cell `idx + j` holds form `j`. -/
theorem conjugationFormLoop (t : SystemDictionaryData.PosToken)
    (arr : List UserPOS.ConjugationType) (idx m : Nat) :
    (forLoop m (conjugationFormBody t) (arr, idx)).2 = idx + m ∧
    (forLoop m (conjugationFormBody t) (arr, idx)).1.length = arr.length ∧
    (∀ p, p < idx ∨ idx + m ≤ p →
      (forLoop m (conjugationFormBody t) (arr, idx)).1[p]? = arr[p]?) ∧
    (idx + m ≤ arr.length → ∀ j, j < m →
      (forLoop m (conjugationFormBody t) (arr, idx)).1[idx + j]? =
        some (conjugationCell (t.conjugation_forms_at j))) := by
  induction m with
  | zero =>
    refine ⟨rfl, rfl, fun p _ => rfl, fun _ j hj => ?_⟩
    omega
  | succ m ih =>
    obtain ⟨h2, hlen, hframe, hcell⟩ := ih
    rw [forLoop_succ]
    refine ⟨?_, ?_, ?_, ?_⟩
    · rw [conjugationFormBody_snd, h2]; omega
    · rw [conjugationFormBody_length, hlen]
    · intro p hp
      rw [conjugationFormBody_frame _ _ _ _ (by rw [h2]; omega)]
      exact hframe p (by omega)
    · intro hb j hj
      by_cases hjm : j = m
      · subst hjm
        have := conjugationFormBody_cell t j (forLoop j (conjugationFormBody t) (arr, idx))
          (by rw [h2, hlen]; omega)
        rw [h2] at this
        exact this
      · rw [conjugationFormBody_frame _ _ _ _ (by rw [h2]; omega)]
        exact hcell (by omega) j (by omega)

theorem posTokenBody_pos_token (data : SystemDictionaryData) (i : Nat) (s : PosLoop) :
    (posTokenBody data i s).pos_token_ =
      update s.pos_token_ i (fun _ => posTokenCell (data.pos_tokens_at i) s.conjugation_index) := by
  unfold posTokenBody posTokenCell
  dsimp only
  cases hp : (data.pos_tokens_at i).pos <;>
    by_cases hk : (data.pos_tokens_at i).conjugation_forms_size = 0 <;>
    simp [hk, update_update]

theorem posTokenBody_conj (data : SystemDictionaryData) (i : Nat) (s : PosLoop) :
    ((posTokenBody data i s).conjugation_array_, (posTokenBody data i s).conjugation_index) =
      forLoop (data.pos_tokens_at i).conjugation_forms_size
        (conjugationFormBody (data.pos_tokens_at i))
        (s.conjugation_array_, s.conjugation_index) := rfl

/-- The counting loop computes the sum of the `conjugation_forms_size()`. -/
theorem conjugationCount_eq (data : SystemDictionaryData) (n : Nat) :
    forLoop n (conjugationCountBody data) 0 =
      ∑ i ∈ Finset.range n, (data.pos_tokens_at i).conjugation_forms_size := by
  induction n with
  | zero => rfl
  | succ n ih => rw [forLoop_succ, ih, Finset.sum_range_succ]; rfl

/-- Invariant of the POS token loop after `n` iterations, started on arrays of
the allocated lengths with the running index at 0. -/
theorem posTokenLoop (data : SystemDictionaryData) (tok0 : List UserPOS.POSToken)
    (arr0 : List UserPOS.ConjugationType)
    (htok : tok0.length = data.pos_tokens_size)
    (harr : arr0.length =
      ∑ i ∈ Finset.range data.pos_tokens_size, (data.pos_tokens_at i).conjugation_forms_size)
    (n : Nat) (hn : n ≤ data.pos_tokens_size) :
    (forLoop n (posTokenBody data) ⟨tok0, arr0, 0⟩).conjugation_index =
      ∑ i ∈ Finset.range n, (data.pos_tokens_at i).conjugation_forms_size ∧
    (forLoop n (posTokenBody data) ⟨tok0, arr0, 0⟩).pos_token_.length = data.pos_tokens_size ∧
    (forLoop n (posTokenBody data) ⟨tok0, arr0, 0⟩).conjugation_array_.length = arr0.length ∧
    (∀ i, i < n → (forLoop n (posTokenBody data) ⟨tok0, arr0, 0⟩).pos_token_[i]? =
      some (posTokenCell (data.pos_tokens_at i)
        (∑ t ∈ Finset.range i, (data.pos_tokens_at t).conjugation_forms_size))) ∧
    (∀ i, i < n → ∀ j, j < (data.pos_tokens_at i).conjugation_forms_size →
      (forLoop n (posTokenBody data) ⟨tok0, arr0, 0⟩).conjugation_array_[
        (∑ t ∈ Finset.range i, (data.pos_tokens_at t).conjugation_forms_size) + j]? =
      some (conjugationCell ((data.pos_tokens_at i).conjugation_forms_at j))) := by
  induction n with
  | zero =>
    refine ⟨rfl, htok, rfl, fun i hi => ?_, fun i hi => ?_⟩ <;> omega
  | succ n ih =>
    obtain ⟨hidx, hlt, hla, htoks, hcells⟩ := ih (by omega)
    have hle := sum_range_le_of_le (fun i => (data.pos_tokens_at i).conjugation_forms_size) hn
    rw [Finset.sum_range_succ] at hle
    rw [forLoop_succ]
    generalize forLoop n (posTokenBody data) ⟨tok0, arr0, 0⟩ = s at hidx hlt hla htoks hcells ⊢
    have hconj := posTokenBody_conj data n s
    obtain ⟨l2, llen, lframe, lcell⟩ := conjugationFormLoop (data.pos_tokens_at n)
      s.conjugation_array_ s.conjugation_index (data.pos_tokens_at n).conjugation_forms_size
    rw [← hconj] at l2 llen lframe lcell
    dsimp only at l2 llen lframe lcell
    refine ⟨?_, ?_, ?_, ?_, ?_⟩
    · rw [l2, hidx, Finset.sum_range_succ]
    · rw [posTokenBody_pos_token, update_length, hlt]
    · rw [llen, hla]
    · intro i hi
      rw [posTokenBody_pos_token]
      by_cases hin : i = n
      · subst hin
        obtain ⟨x, -, hx⟩ := getElem?_update_cell s.pos_token_ i
          (fun _ => posTokenCell (data.pos_tokens_at i) s.conjugation_index) (by omega)
        rw [hx, hidx]
      · rw [getElem?_update_ne _ _ _ _ (fun h => hin h.symm)]
        exact htoks i (by omega)
    · intro i hi j hj
      by_cases hin : i = n
      · subst hin
        have := lcell (by rw [hidx, hla, harr]; exact hle) j hj
        rw [hidx] at this
        exact this
      · have hi2 : i < n := by omega
        have hle2 := sum_range_le_of_le
          (fun i => (data.pos_tokens_at i).conjugation_forms_size) (Nat.succ_le_of_lt hi2)
        rw [Finset.sum_range_succ] at hle2
        beta_reduce at hle2
        rw [lframe _ (Or.inl (by rw [hidx]; omega))]
        exact hcells i hi2 j hj

theorem rangeBody_eq (t : SystemDictionaryData.PosMatcherData.RangeTable) (j : Nat)
    (s : List Range × Nat) :
    rangeBody t j s = (update s.1 s.2 (fun _ => rangeCell (t.ranges_at j)), s.2 + 1) := by
  unfold rangeBody rangeCell
  simp [update_update]

/-- Inner loop over the ranges of one table: after `m` iterations the index
has advanced by `m`, the array has kept its length, the cells outside
`[idx, idx + m)` are untouched and cell `idx + j` holds range `j`. -/
theorem rangeLoop (t : SystemDictionaryData.PosMatcherData.RangeTable)
    (arr : List Range) (idx m : Nat) :
    (forLoop m (rangeBody t) (arr, idx)).2 = idx + m ∧
    (forLoop m (rangeBody t) (arr, idx)).1.length = arr.length ∧
    (∀ p, p < idx ∨ idx + m ≤ p → (forLoop m (rangeBody t) (arr, idx)).1[p]? = arr[p]?) ∧
    (idx + m ≤ arr.length → ∀ j, j < m →
      (forLoop m (rangeBody t) (arr, idx)).1[idx + j]? = some (rangeCell (t.ranges_at j))) := by
  induction m with
  | zero =>
    refine ⟨rfl, rfl, fun p _ => rfl, fun _ j hj => ?_⟩
    omega
  | succ m ih =>
    obtain ⟨h2, hlen, hframe, hcell⟩ := ih
    rw [forLoop_succ, rangeBody_eq]
    refine ⟨?_, ?_, ?_, ?_⟩
    · show (forLoop m (rangeBody t) (arr, idx)).2 + 1 = idx + (m + 1)
      rw [h2]; omega
    · show (update _ _ _).length = arr.length
      rw [update_length, hlen]
    · intro p hp
      show (update _ _ _)[p]? = arr[p]?
      rw [getElem?_update_ne _ _ _ _ (by rw [h2]; omega)]
      exact hframe p (by omega)
    · intro hb j hj
      show (update _ _ _)[idx + j]? = _
      by_cases hjm : j = m
      · subst hjm
        obtain ⟨x, -, hx⟩ := getElem?_update_cell (forLoop j (rangeBody t) (arr, idx)).1
          (forLoop j (rangeBody t) (arr, idx)).2 (fun _ => rangeCell (t.ranges_at j))
          (by rw [h2, hlen]; omega)
        rw [h2] at hx
        rw [h2]
        exact hx
      · rw [getElem?_update_ne _ _ _ _ (by rw [h2]; omega)]
        exact hcell (by omega) j (by omega)

/-- The range counting loop computes the sum of the `ranges_size()`. -/
theorem rangeCount_eq (md : SystemDictionaryData.PosMatcherData) (n : Nat) :
    forLoop n (rangeCountBody md) 0 =
      ∑ i ∈ Finset.range n, (md.range_tables_at i).ranges_size := by
  induction n with
  | zero => rfl
  | succ n ih => rw [forLoop_succ, ih, Finset.sum_range_succ]; rfl

/-- The allocated length `range_count + range_tables_size()` counts every range
and one terminator per table. -/
theorem rangeItems_length (md : SystemDictionaryData.PosMatcherData) (n : Nat) :
    forLoop n (rangeCountBody md) 0 + n =
      ∑ i ∈ Finset.range n, ((md.range_tables_at i).ranges_size + 1) := by
  rw [rangeCount_eq, Finset.sum_add_distrib]
  simp

theorem rangeTableBody_tables (md : SystemDictionaryData.PosMatcherData) (i : Nat)
    (s : RangeLoop) :
    (rangeTableBody md i s).range_tables_ = s.range_tables_.set i (some s.range_index) := rfl

theorem rangeTableBody_items (md : SystemDictionaryData.PosMatcherData) (i : Nat)
    (s : RangeLoop) :
    (rangeTableBody md i s).range_table_items_ =
      update (forLoop (md.range_tables_at i).ranges_size (rangeBody (md.range_tables_at i))
          (s.range_table_items_, s.range_index)).1
        (forLoop (md.range_tables_at i).ranges_size (rangeBody (md.range_tables_at i))
          (s.range_table_items_, s.range_index)).2 (fun _ => sentinel) := by
  unfold rangeTableBody sentinel
  simp [update_update]

theorem rangeTableBody_index (md : SystemDictionaryData.PosMatcherData) (i : Nat)
    (s : RangeLoop) :
    (rangeTableBody md i s).range_index =
      (forLoop (md.range_tables_at i).ranges_size (rangeBody (md.range_tables_at i))
          (s.range_table_items_, s.range_index)).2 + 1 := rfl

/-- Invariant of the range table loop after `n` iterations, started on arrays
of the allocated lengths with the running index at 0. -/
theorem rangeTableLoop (md : SystemDictionaryData.PosMatcherData) (tab0 : List (Option Nat))
    (items0 : List Range)
    (htab : tab0.length = md.range_tables_size)
    (hitems : items0.length =
      ∑ i ∈ Finset.range md.range_tables_size, ((md.range_tables_at i).ranges_size + 1))
    (n : Nat) (hn : n ≤ md.range_tables_size) :
    (forLoop n (rangeTableBody md) ⟨tab0, items0, 0⟩).range_index =
      ∑ i ∈ Finset.range n, ((md.range_tables_at i).ranges_size + 1) ∧
    (forLoop n (rangeTableBody md) ⟨tab0, items0, 0⟩).range_tables_.length =
      md.range_tables_size ∧
    (forLoop n (rangeTableBody md) ⟨tab0, items0, 0⟩).range_table_items_.length =
      items0.length ∧
    (∀ i, i < n → (forLoop n (rangeTableBody md) ⟨tab0, items0, 0⟩).range_tables_[i]? =
      some (some (∑ t ∈ Finset.range i, ((md.range_tables_at t).ranges_size + 1)))) ∧
    (∀ i, i < n → ∀ j, j < (md.range_tables_at i).ranges_size →
      (forLoop n (rangeTableBody md) ⟨tab0, items0, 0⟩).range_table_items_[
        (∑ t ∈ Finset.range i, ((md.range_tables_at t).ranges_size + 1)) + j]? =
      some (rangeCell ((md.range_tables_at i).ranges_at j))) ∧
    (∀ i, i < n →
      (forLoop n (rangeTableBody md) ⟨tab0, items0, 0⟩).range_table_items_[
        (∑ t ∈ Finset.range i, ((md.range_tables_at t).ranges_size + 1)) +
          (md.range_tables_at i).ranges_size]? = some sentinel) := by
  induction n with
  | zero =>
    refine ⟨rfl, htab, rfl, fun i hi => ?_, fun i hi => ?_, fun i hi => ?_⟩ <;> omega
  | succ n ih =>
    obtain ⟨hidx, hlt, hla, htabs, hcells, hsent⟩ := ih (by omega)
    have hle := sum_range_le_of_le (fun i => (md.range_tables_at i).ranges_size + 1) hn
    rw [Finset.sum_range_succ] at hle
    beta_reduce at hle
    have hprev : ∀ i, i < n →
        (∑ t ∈ Finset.range i, ((md.range_tables_at t).ranges_size + 1)) +
          ((md.range_tables_at i).ranges_size + 1) ≤
        ∑ t ∈ Finset.range n, ((md.range_tables_at t).ranges_size + 1) := by
      intro i hi
      have h := sum_range_le_of_le (fun i => (md.range_tables_at i).ranges_size + 1)
        (Nat.succ_le_of_lt hi)
      rw [Finset.sum_range_succ] at h
      exact h
    rw [forLoop_succ]
    generalize forLoop n (rangeTableBody md) ⟨tab0, items0, 0⟩ = s at hidx hlt hla htabs hcells hsent ⊢
    obtain ⟨l2, llen, lframe, lcell⟩ := rangeLoop (md.range_tables_at n)
      s.range_table_items_ s.range_index (md.range_tables_at n).ranges_size
    refine ⟨?_, ?_, ?_, ?_, ?_, ?_⟩
    · rw [rangeTableBody_index, l2, hidx, Finset.sum_range_succ]; omega
    · rw [rangeTableBody_tables, List.length_set, hlt]
    · rw [rangeTableBody_items, update_length, llen, hla]
    · intro i hi
      rw [rangeTableBody_tables]
      by_cases hin : i = n
      · subst hin
        rw [List.getElem?_set_self (by omega), hidx]
      · rw [List.getElem?_set_ne (fun h => hin h.symm)]
        exact htabs i (by omega)
    · intro i hi j hj
      rw [rangeTableBody_items, getElem?_update_ne]
      · by_cases hin : i = n
        · subst hin
          rw [← hidx]
          exact lcell (by rw [hidx, hla, hitems]; omega) j hj
        · have hi2 : i < n := by omega
          have := hprev i hi2
          rw [lframe _ (Or.inl (by rw [hidx]; omega))]
          exact hcells i hi2 j hj
      · rw [l2, hidx]
        by_cases hin : i = n
        · subst hin; omega
        · have := hprev i (by omega); omega
    · intro i hi
      rw [rangeTableBody_items]
      by_cases hin : i = n
      · subst hin
        obtain ⟨x, -, hx⟩ := getElem?_update_cell
          (forLoop (md.range_tables_at i).ranges_size (rangeBody (md.range_tables_at i))
            (s.range_table_items_, s.range_index)).1
          (forLoop (md.range_tables_at i).ranges_size (rangeBody (md.range_tables_at i))
            (s.range_table_items_, s.range_index)).2 (fun _ => sentinel)
          (by rw [l2, llen, hidx, hla, hitems]; omega)
        rw [l2, hidx] at hx
        rw [l2, hidx]
        exact hx
      · have hi2 : i < n := by omega
        have := hprev i hi2
        rw [getElem?_update_ne _ _ _ _ (by rw [l2, hidx]; omega),
          lframe _ (Or.inl (by rw [hidx]; omega))]
        exact hsent i hi2

/-- The rule-id loop keeps the length of the table. -/
theorem ruleIdLoop_length (data : SystemDictionaryData) (tab : List Nat) (n : Nat) :
    (forLoop n (ruleIdBody data) tab).length = tab.length := by
  induction n with
  | zero => rfl
  | succ n ih =>
    rw [forLoop_succ]
    show ((forLoop n (ruleIdBody data) tab).set _ _).length = _
    rw [List.length_set, ih]

/-- With the expected format version the function runs through the table
construction: the state it leaves holds the arrays computed by the loops, and
the flag and `manager_` come from the nested payload step. -/
theorem initialize_ok (env : Env) (self : PackedDataManager.Impl) (data : SystemDictionaryData)
    (hd : self.system_dictionary_data_ = some data)
    (hv : data.format_version = env.kSystemDictionaryFormatVersion) :
    ∃ r, InitializeWithSystemDictionaryData env self = some r ∧
      r.2.pos_token_ = some (forLoop data.pos_tokens_size (posTokenBody data)
        ⟨List.replicate data.pos_tokens_size env.junk_pos_token,
          List.replicate (forLoop data.pos_tokens_size (conjugationCountBody data) 0)
            env.junk_conjugation, 0⟩).pos_token_ ∧
      r.2.conjugation_array_ = some (forLoop data.pos_tokens_size (posTokenBody data)
        ⟨List.replicate data.pos_tokens_size env.junk_pos_token,
          List.replicate (forLoop data.pos_tokens_size (conjugationCountBody data) 0)
            env.junk_conjugation, 0⟩).conjugation_array_ ∧
      r.2.rule_id_table_ = some (forLoop data.pos_matcher_data.rule_id_table_size
        (ruleIdBody data)
        (List.replicate data.pos_matcher_data.rule_id_table_size env.junk_rule_id)) ∧
      r.2.range_tables_ = some (forLoop data.pos_matcher_data.range_tables_size
        (rangeTableBody data.pos_matcher_data)
        ⟨List.replicate data.pos_matcher_data.range_tables_size env.junk_range_table,
          List.replicate (forLoop data.pos_matcher_data.range_tables_size
            (rangeCountBody data.pos_matcher_data) 0 + data.pos_matcher_data.range_tables_size)
            env.junk_range, 0⟩).range_tables_ ∧
      r.2.range_table_items_ = some (forLoop data.pos_matcher_data.range_tables_size
        (rangeTableBody data.pos_matcher_data)
        ⟨List.replicate data.pos_matcher_data.range_tables_size env.junk_range_table,
          List.replicate (forLoop data.pos_matcher_data.range_tables_size
            (rangeCountBody data.pos_matcher_data) 0 + data.pos_matcher_data.range_tables_size)
            env.junk_range, 0⟩).range_table_items_ ∧
      r.2.pos_matcher_.isSome = true ∧
      r.2.system_dictionary_data_ = some data ∧
      (r.1, r.2.manager_) =
        if data.has_mozc_data then
          env.InitFromArray self.manager_ data.get_mozc_data data.get_mozc_data_magic
        else (true, self.manager_) := by
  unfold InitializeWithSystemDictionaryData
  rw [hd]
  simp only [hv, ne_eq, not_true_eq_false, if_false]
  by_cases hm : data.has_mozc_data = true
  · by_cases hr : (env.InitFromArray self.manager_ data.get_mozc_data
        data.get_mozc_data_magic).1 = true
    · simp [hm, hr, hd]
      rw [← hr]
    · simp only [Bool.not_eq_true] at hr
      simp [hm, hr, hd]
      rw [← hr]
  · simp [hm, hd]

theorem conjugationStart_eq (data : SystemDictionaryData) (i : Nat) (hi : i ≤ data.pos_tokens.length) :
    ∑ t ∈ Finset.range i, (data.pos_tokens_at t).conjugation_forms_size =
      ((data.pos_tokens.take i).map (fun t => t.conjugation_forms.length)).sum :=
  sum_range_getD data.pos_tokens default (fun t => t.conjugation_forms.length) i hi

theorem rangeStart_eq (md : SystemDictionaryData.PosMatcherData) (i : Nat)
    (hi : i ≤ md.range_tables.length) :
    ∑ t ∈ Finset.range i, ((md.range_tables_at t).ranges_size + 1) =
      ((md.range_tables.take i).map (fun t => t.ranges.length + 1)).sum :=
  sum_range_getD md.range_tables default (fun t => t.ranges.length + 1) i hi

/-- The POS token table and the conjugation array left by a run with the
expected format version, cell by cell. -/
theorem initialize_pos (env : Env) (self : PackedDataManager.Impl) (data : SystemDictionaryData)
    (hd : self.system_dictionary_data_ = some data)
    (hv : data.format_version = env.kSystemDictionaryFormatVersion) :
    ∃ r toks arr, InitializeWithSystemDictionaryData env self = some r ∧
      r.2.pos_token_ = some toks ∧ r.2.conjugation_array_ = some arr ∧
      toks.length = data.pos_tokens.length ∧
      arr.length = (data.pos_tokens.map (fun t => t.conjugation_forms.length)).sum ∧
      (∀ i t, data.pos_tokens[i]? = some t → toks[i]? = some (posTokenCell t
        ((data.pos_tokens.take i).map (fun t => t.conjugation_forms.length)).sum)) ∧
      (∀ i t, data.pos_tokens[i]? = some t → ∀ j f, t.conjugation_forms[j]? = some f →
        arr[((data.pos_tokens.take i).map (fun t => t.conjugation_forms.length)).sum + j]? =
          some (conjugationCell f)) := by
  obtain ⟨r, hr, htok, harr, -⟩ := initialize_ok env self data hd hv
  have hcount := conjugationCount_eq data data.pos_tokens_size
  obtain ⟨-, hlt, hla, htoks, hcells⟩ := posTokenLoop data
    (List.replicate data.pos_tokens_size env.junk_pos_token)
    (List.replicate (forLoop data.pos_tokens_size (conjugationCountBody data) 0)
      env.junk_conjugation)
    (List.length_replicate _ _) (by rw [List.length_replicate, hcount])
    data.pos_tokens_size (Nat.le_refl _)
  refine ⟨r, _, _, hr, htok, harr, hlt, ?_, ?_, ?_⟩
  · rw [hla, List.length_replicate, hcount,
      conjugationStart_eq data data.pos_tokens_size (Nat.le_refl _)]
    simp [SystemDictionaryData.pos_tokens_size]
  · intro i t hit
    have hi := lt_length_of_getElem? _ _ _ hit
    have ht : data.pos_tokens_at i = t := getD_of_getElem? _ _ _ _ hit
    rw [htoks i hi, ht, conjugationStart_eq data i (Nat.le_of_lt hi)]
  · intro i t hit j f hjf
    have hi := lt_length_of_getElem? _ _ _ hit
    have ht : data.pos_tokens_at i = t := getD_of_getElem? _ _ _ _ hit
    have hj := lt_length_of_getElem? _ _ _ hjf
    have hf : t.conjugation_forms_at j = f := getD_of_getElem? _ _ _ _ hjf
    have := hcells i hi j (by rw [ht]; exact hj)
    rw [ht, hf, conjugationStart_eq data i (Nat.le_of_lt hi)] at this
    exact this

/-- The range tables left by a run with the expected format version, cell by
cell. -/
theorem initialize_range (env : Env) (self : PackedDataManager.Impl)
    (data : SystemDictionaryData)
    (hd : self.system_dictionary_data_ = some data)
    (hv : data.format_version = env.kSystemDictionaryFormatVersion) :
    ∃ r tabs items, InitializeWithSystemDictionaryData env self = some r ∧
      r.2.range_tables_ = some tabs ∧ r.2.range_table_items_ = some items ∧
      tabs.length = data.pos_matcher_data.range_tables.length ∧
      items.length =
        (data.pos_matcher_data.range_tables.map (fun t => t.ranges.length + 1)).sum ∧
      (∀ i t, data.pos_matcher_data.range_tables[i]? = some t → tabs[i]? = some (some
        ((data.pos_matcher_data.range_tables.take i).map (fun t => t.ranges.length + 1)).sum)) ∧
      (∀ i t, data.pos_matcher_data.range_tables[i]? = some t → ∀ j x, t.ranges[j]? = some x →
        items[((data.pos_matcher_data.range_tables.take i).map
          (fun t => t.ranges.length + 1)).sum + j]? = some (rangeCell x)) ∧
      (∀ i t, data.pos_matcher_data.range_tables[i]? = some t →
        items[((data.pos_matcher_data.range_tables.take i).map
          (fun t => t.ranges.length + 1)).sum + t.ranges.length]? = some sentinel) := by
  obtain ⟨r, hr, -, -, -, htab, hitems, -⟩ := initialize_ok env self data hd hv
  have hcount := rangeItems_length data.pos_matcher_data
    data.pos_matcher_data.range_tables_size
  obtain ⟨-, hlt, hla, htabs, hcells, hsent⟩ := rangeTableLoop data.pos_matcher_data
    (List.replicate data.pos_matcher_data.range_tables_size env.junk_range_table)
    (List.replicate (forLoop data.pos_matcher_data.range_tables_size
      (rangeCountBody data.pos_matcher_data) 0 + data.pos_matcher_data.range_tables_size)
      env.junk_range)
    (List.length_replicate _ _) (by rw [List.length_replicate, hcount])
    data.pos_matcher_data.range_tables_size (Nat.le_refl _)
  refine ⟨r, _, _, hr, htab, hitems, hlt, ?_, ?_, ?_, ?_⟩
  · rw [hla, List.length_replicate, hcount,
      rangeStart_eq data.pos_matcher_data data.pos_matcher_data.range_tables_size (Nat.le_refl _)]
    simp [SystemDictionaryData.PosMatcherData.range_tables_size]
  · intro i t hit
    have hi := lt_length_of_getElem? _ _ _ hit
    rw [htabs i hi, rangeStart_eq data.pos_matcher_data i (Nat.le_of_lt hi)]
  · intro i t hit j x hjx
    have hi := lt_length_of_getElem? _ _ _ hit
    have ht : data.pos_matcher_data.range_tables_at i = t := getD_of_getElem? _ _ _ _ hit
    have hj := lt_length_of_getElem? _ _ _ hjx
    have hx : t.ranges_at j = x := getD_of_getElem? _ _ _ _ hjx
    have := hcells i hi j (by rw [ht]; exact hj)
    rw [ht, hx, rangeStart_eq data.pos_matcher_data i (Nat.le_of_lt hi)] at this
    exact this
  · intro i t hit
    have hi := lt_length_of_getElem? _ _ _ hit
    have ht : data.pos_matcher_data.range_tables_at i = t := getD_of_getElem? _ _ _ _ hit
    have := hsent i hi
    rw [ht, rangeStart_eq data.pos_matcher_data i (Nat.le_of_lt hi)] at this
    exact this

end PackedDataManager.Impl

open PackedDataManager.Impl

/-! ## The rule-id loop and the matcher -/

/-- Invariant of the rule-id loop after `n` iterations: the table keeps its
length and its first `n` cells hold the rule ids as 16-bit values. -/
theorem ruleIdLoop (data : SystemDictionaryData) (tab0 : List Nat)
    (htab : tab0.length = data.pos_matcher_data.rule_id_table_size)
    (n : Nat) (hn : n ≤ data.pos_matcher_data.rule_id_table_size) :
    ∀ i, i < n → (forLoop n (ruleIdBody data) tab0)[i]? =
      some (data.pos_matcher_data.rule_id_table_at i % 2 ^ 16) := by
  induction n with
  | zero => intro i hi; omega
  | succ n ih =>
    intro i hi
    rw [forLoop_succ]
    show ((forLoop n (ruleIdBody data) tab0).set n _)[i]? = _
    by_cases hin : i = n
    · subst hin
      rw [List.getElem?_set_self (by rw [ruleIdLoop_length, htab]; omega)]
    · rw [List.getElem?_set_ne (fun h => hin h.symm)]
      exact ih (by omega) i (by omega)

/-- The matcher left by a run with the expected format version is built from
the rule-id table and the range table array the run leaves. -/
theorem initialize_matcher (env : Env) (self : PackedDataManager.Impl)
    (data : SystemDictionaryData)
    (hd : self.system_dictionary_data_ = some data)
    (hv : data.format_version = env.kSystemDictionaryFormatVersion) :
    ∃ (r : Bool × PackedDataManager.Impl) (tab : List Nat) (tabs : List (Option Nat)),
      InitializeWithSystemDictionaryData env self = some r ∧
      r.2.rule_id_table_ = some tab ∧ r.2.range_tables_ = some tabs ∧
      r.2.pos_matcher_ = some { rule_id_table := tab, range_table := tabs } ∧
      tab = forLoop data.pos_matcher_data.rule_id_table_size (ruleIdBody data)
        (List.replicate data.pos_matcher_data.rule_id_table_size env.junk_rule_id) := by
  unfold InitializeWithSystemDictionaryData
  rw [hd]
  simp only [hv, ne_eq, not_true_eq_false, if_false]
  by_cases hm : data.has_mozc_data = true
  · by_cases hr : (env.InitFromArray self.manager_ data.get_mozc_data
        data.get_mozc_data_magic).1 = true
    · simp [hm, hr]
    · simp only [Bool.not_eq_true] at hr
      simp [hm, hr]
  · simp [hm]

/-! ## The claims -/

/-- C1: with the expected format version, every token `i` of the container with
`k_i ≥ 1` conjugation forms is rebuilt with `conjugation_size = k_i` and a
`conjugation_form` pointing at index `sum_{j<i} k_j` of the shared conjugation
array, and the `k_i` cells read from there are the token's records (key suffix
or null, value suffix or null, id) in their order; `pos` is the label reference,
null when the label is absent. -/
theorem C1_pos_token_round_trip (env : Env) (self : PackedDataManager.Impl)
    (data : SystemDictionaryData)
    (hd : self.system_dictionary_data_ = some data)
    (hv : data.format_version = env.kSystemDictionaryFormatVersion) :
    ∃ (r : Bool × PackedDataManager.Impl) (toks : List UserPOS.POSToken)
      (arr : List UserPOS.ConjugationType), InitializeWithSystemDictionaryData env self = some r ∧
      r.2.pos_token_ = some toks ∧ r.2.conjugation_array_ = some arr ∧
      ∀ (i : Nat) (t : SystemDictionaryData.PosToken), data.pos_tokens[i]? = some t →
        ∃ tok, toks[i]? = some tok ∧ tok.pos = t.pos ∧
          (1 ≤ t.conjugation_forms.length →
            tok.conjugation_size = t.conjugation_forms.length ∧
            tok.conjugation_form =
              some ((data.pos_tokens.take i).map (fun u => u.conjugation_forms.length)).sum ∧
            ∀ j f, t.conjugation_forms[j]? = some f →
              arr[((data.pos_tokens.take i).map (fun u => u.conjugation_forms.length)).sum + j]? =
                some { key_suffix := f.key_suffix, value_suffix := f.value_suffix, id := f.id }) := by
  obtain ⟨r, toks, arr, hr, htok, harr, -, -, htoks, hcells⟩ := initialize_pos env self data hd hv
  refine ⟨r, toks, arr, hr, htok, harr, fun i t hit => ⟨_, htoks i t hit, rfl, fun hk => ?_⟩⟩
  refine ⟨rfl, ?_, fun j f hjf => hcells i t hit j f hjf⟩
  have hne : ¬ t.conjugation_forms_size = 0 := by
    unfold SystemDictionaryData.PosToken.conjugation_forms_size
    omega
  simp [posTokenCell, hne]

/-- C2: with the expected format version, the length of the shared conjugation
array is the sum of `conjugation_forms_size()` over all POS tokens, and the
`conjugation_size` fields of the rebuilt tokens sum to that length. -/
theorem C2_conjugation_array_length (env : Env) (self : PackedDataManager.Impl)
    (data : SystemDictionaryData)
    (hd : self.system_dictionary_data_ = some data)
    (hv : data.format_version = env.kSystemDictionaryFormatVersion) :
    ∃ (r : Bool × PackedDataManager.Impl) (toks : List UserPOS.POSToken)
      (arr : List UserPOS.ConjugationType), InitializeWithSystemDictionaryData env self = some r ∧
      r.2.pos_token_ = some toks ∧ r.2.conjugation_array_ = some arr ∧
      arr.length = (data.pos_tokens.map (fun t => t.conjugation_forms_size)).sum ∧
      (toks.map (fun tok => tok.conjugation_size)).sum = arr.length := by
  obtain ⟨r, toks, arr, hr, htok, harr, hlt, hla, htoks, -⟩ := initialize_pos env self data hd hv
  refine ⟨r, toks, arr, hr, htok, harr, hla, ?_⟩
  rw [hla]
  congr 1
  apply List.ext_getElem?
  intro i
  by_cases hi : i < data.pos_tokens.length
  · have hit : data.pos_tokens[i]? = some data.pos_tokens[i] := List.getElem?_eq_getElem hi
    simp only [List.getElem?_map, htoks i _ hit, hit, Option.map_some']
    rfl
  · rw [List.getElem?_eq_none (by rw [List.length_map]; omega),
      List.getElem?_eq_none (by rw [List.length_map]; omega)]

/-- C3: with the expected format version, the `conjugation_form` reference of
every rebuilt token `i` is null exactly when `k_i = 0`, and `conjugation_size`
is 0 in the null case. -/
theorem C3_null_conjugation_iff_empty (env : Env) (self : PackedDataManager.Impl)
    (data : SystemDictionaryData)
    (hd : self.system_dictionary_data_ = some data)
    (hv : data.format_version = env.kSystemDictionaryFormatVersion) :
    ∃ (r : Bool × PackedDataManager.Impl) (toks : List UserPOS.POSToken), InitializeWithSystemDictionaryData env self = some r ∧
      r.2.pos_token_ = some toks ∧
      ∀ (i : Nat) (t : SystemDictionaryData.PosToken), data.pos_tokens[i]? = some t →
        ∃ tok, toks[i]? = some tok ∧
          (tok.conjugation_form = none ↔ t.conjugation_forms.length = 0) ∧
          (tok.conjugation_form = none → tok.conjugation_size = 0) := by
  obtain ⟨r, toks, arr, hr, htok, -, -, -, htoks, -⟩ := initialize_pos env self data hd hv
  refine ⟨r, toks, hr, htok, fun i t hit => ⟨_, htoks i t hit, ?_, ?_⟩⟩
  · by_cases hk : t.conjugation_forms.length = 0 <;>
      simp [posTokenCell, SystemDictionaryData.PosToken.conjugation_forms_size, hk]
  · by_cases hk : t.conjugation_forms.length = 0 <;>
      simp [posTokenCell, SystemDictionaryData.PosToken.conjugation_forms_size, hk]

/-- C4: with the expected format version, for every range table `i` with `n_i`
ranges the cell at offset `n_i` from the recorded start is `(0xFFFF, 0xFFFF)` and
lies inside the shared range array, so a scan from the recorded start meets the
pair within `n_i + 1` cells (also when `n_i = 0`). -/
theorem C4_sentinel_after_ranges (env : Env) (self : PackedDataManager.Impl)
    (data : SystemDictionaryData)
    (hd : self.system_dictionary_data_ = some data)
    (hv : data.format_version = env.kSystemDictionaryFormatVersion) :
    ∃ (r : Bool × PackedDataManager.Impl) (tabs : List (Option Nat)) (items : List Range), InitializeWithSystemDictionaryData env self = some r ∧
      r.2.range_tables_ = some tabs ∧ r.2.range_table_items_ = some items ∧
      ∀ (i : Nat) (t : SystemDictionaryData.PosMatcherData.RangeTable),
        data.pos_matcher_data.range_tables[i]? = some t →
        ∃ start, tabs[i]? = some (some start) ∧
          items[start + t.ranges.length]? = some { lower := 0xFFFF, upper := 0xFFFF } ∧
          start + t.ranges.length < items.length ∧
          ∃ j, j < t.ranges.length + 1 ∧
            items[start + j]? = some { lower := 0xFFFF, upper := 0xFFFF } := by
  obtain ⟨r, tabs, items, hr, htab, hitems, -, -, htabs, -, hsent⟩ :=
    initialize_range env self data hd hv
  refine ⟨r, tabs, items, hr, htab, hitems, fun i t hit => ⟨_, htabs i t hit, ?_, ?_, ?_⟩⟩
  · exact hsent i t hit
  · exact lt_length_of_getElem? _ _ _ (hsent i t hit)
  · exact ⟨t.ranges.length, Nat.lt_succ_self _, hsent i t hit⟩

/-- C5, counterexample: a container of the expected format version whose only
range table holds the single range `(0xFFFF, 0xFFFF)`.  The table starts at
cell 0 and has `n_0 = 1` range, and the cell at offset 0, one of the `n_0`
stored ranges, is the pair `(0xFFFF, 0xFFFF)`: a scan from the start stops
there, before the terminator at offset 1. -/
theorem C5_counterexample_sentinel_valued_range :
    sentinelRangeData.format_version = sampleEnv.kSystemDictionaryFormatVersion ∧
    (sentinelRangeData.pos_matcher_data.range_tables.map (fun t => t.ranges.length)) = [1] ∧
    (InitializeWithSystemDictionaryData sampleEnv (sampleImpl sentinelRangeData)).map
        (fun r => (r.1, r.2.range_tables_, r.2.range_table_items_)) =
      some (true, some [some 0],
        some [{ lower := 0xFFFF, upper := 0xFFFF }, { lower := 0xFFFF, upper := 0xFFFF }]) := by
  decide

/-- C5, amended: with the expected format version, for every range table `i`
none of whose ranges has both bounds equal to `0xFFFF` modulo `2 ^ 16`, none of
the `n_i` cells stored from the recorded start is `(0xFFFF, 0xFFFF)`; the first
such pair met by a scan from the recorded start is the terminator at offset
exactly `n_i`. -/
theorem C5_sentinel_is_first_terminator (env : Env) (self : PackedDataManager.Impl)
    (data : SystemDictionaryData)
    (hd : self.system_dictionary_data_ = some data)
    (hv : data.format_version = env.kSystemDictionaryFormatVersion) :
    ∃ (r : Bool × PackedDataManager.Impl) (tabs : List (Option Nat)) (items : List Range),
      InitializeWithSystemDictionaryData env self = some r ∧
      r.2.range_tables_ = some tabs ∧ r.2.range_table_items_ = some items ∧
      ∀ (i : Nat) (t : SystemDictionaryData.PosMatcherData.RangeTable),
        data.pos_matcher_data.range_tables[i]? = some t →
        (∀ x, x ∈ t.ranges → ¬ (x.lower % 2 ^ 16 = 0xFFFF ∧ x.upper % 2 ^ 16 = 0xFFFF)) →
        ∃ start, tabs[i]? = some (some start) ∧
          (∀ j, j < t.ranges.length →
            ∃ e, items[start + j]? = some e ∧ e ≠ { lower := 0xFFFF, upper := 0xFFFF }) ∧
          items[start + t.ranges.length]? = some { lower := 0xFFFF, upper := 0xFFFF } ∧
          (∀ j, items[start + j]? = some { lower := 0xFFFF, upper := 0xFFFF } →
            t.ranges.length ≤ j) := by
  obtain ⟨r, tabs, items, hr, htab, hitems, -, -, htabs, hcells, hsent⟩ :=
    initialize_range env self data hd hv
  refine ⟨r, tabs, items, hr, htab, hitems, fun i t hit hno => ⟨_, htabs i t hit, ?_, ?_, ?_⟩⟩
  · intro j hj
    have hx : t.ranges[j]? = some t.ranges[j] := List.getElem?_eq_getElem hj
    refine ⟨_, hcells i t hit j _ hx, fun he => ?_⟩
    apply hno _ (List.getElem_mem hj)
    simp only [rangeCell, Range.mk.injEq] at he
    exact he
  · exact hsent i t hit
  · intro j hj
    by_contra hlt
    have hj2 : j < t.ranges.length := by omega
    have hx : t.ranges[j]? = some t.ranges[j] := List.getElem?_eq_getElem hj2
    rw [hcells i t hit j _ hx] at hj
    apply hno _ (List.getElem_mem hj2)
    simp only [rangeCell, Option.some.injEq, Range.mk.injEq] at hj
    exact hj

/-- C6: with the expected format version, the recorded start of range table `i`
is index `sum_{t<i} (n_t + 1)` of the shared range array, and for every
`j < n_i` the cell at `start_i + j` holds the bounds of the `j`-th range of the
table, each stored modulo `2 ^ 16` (so unchanged when at most `0xFFFF`). -/
theorem C6_range_table_layout (env : Env) (self : PackedDataManager.Impl)
    (data : SystemDictionaryData)
    (hd : self.system_dictionary_data_ = some data)
    (hv : data.format_version = env.kSystemDictionaryFormatVersion) :
    ∃ (r : Bool × PackedDataManager.Impl) (tabs : List (Option Nat)) (items : List Range),
      InitializeWithSystemDictionaryData env self = some r ∧
      r.2.range_tables_ = some tabs ∧ r.2.range_table_items_ = some items ∧
      ∀ (i : Nat) (t : SystemDictionaryData.PosMatcherData.RangeTable),
        data.pos_matcher_data.range_tables[i]? = some t →
        tabs[i]? = some (some
          ((data.pos_matcher_data.range_tables.take i).map (fun u => u.ranges.length + 1)).sum) ∧
        ∀ (j : Nat) (x : SystemDictionaryData.PosMatcherData.RangeTable.Range),
          t.ranges[j]? = some x →
          ∃ e, items[((data.pos_matcher_data.range_tables.take i).map
              (fun u => u.ranges.length + 1)).sum + j]? = some e ∧
            e.lower = x.lower % 2 ^ 16 ∧ e.upper = x.upper % 2 ^ 16 ∧
            (x.lower ≤ 0xFFFF → e.lower = x.lower) ∧ (x.upper ≤ 0xFFFF → e.upper = x.upper) := by
  obtain ⟨r, tabs, items, hr, htab, hitems, -, -, htabs, hcells, -⟩ :=
    initialize_range env self data hd hv
  refine ⟨r, tabs, items, hr, htab, hitems, fun i t hit => ⟨htabs i t hit, fun j x hjx => ?_⟩⟩
  refine ⟨_, hcells i t hit j x hjx, rfl, rfl, fun h => ?_, fun h => ?_⟩
  · exact Nat.mod_eq_of_lt (by omega)
  · exact Nat.mod_eq_of_lt (by omega)

/-- C7: when the format version of the parsed container differs from
`kSystemDictionaryFormatVersion`, `InitializeWithSystemDictionaryData` returns
false whatever the other fields hold and leaves the object exactly as it was: no
table is built and `InitFromArray` is not applied to `manager_`.  Reached through
`Impl::Init` on a fresh object, every table and the matcher are still empty and
`manager_` is still the freshly constructed decoder. -/
theorem C7_format_version_mismatch (env : Env) (self : PackedDataManager.Impl)
    (data : SystemDictionaryData)
    (hd : self.system_dictionary_data_ = some data)
    (hv : data.format_version ≠ env.kSystemDictionaryFormatVersion) :
    InitializeWithSystemDictionaryData env self = some (false, self) ∧
    ∀ bytes : String, env.ParseFromString bytes = (true, data) →
      ∃ impl : PackedDataManager.Impl,
        PackedDataManager.Impl.Init env (Impl env) bytes = some (false, impl) ∧
        impl.pos_token_ = none ∧ impl.conjugation_array_ = none ∧
        impl.rule_id_table_ = none ∧ impl.range_tables_ = none ∧
        impl.range_table_items_ = none ∧ impl.pos_matcher_ = none ∧
        impl.manager_ = env.newDataManager := by
  have hgen : ∀ s : PackedDataManager.Impl, s.system_dictionary_data_ = some data →
      InitializeWithSystemDictionaryData env s = some (false, s) := by
    intro s hs
    unfold InitializeWithSystemDictionaryData
    rw [hs]
    simp [hv]
  refine ⟨hgen self hd, fun bytes hp => ?_⟩
  refine ⟨{ Impl env with system_dictionary_data_ := some data }, ?_, rfl, rfl, rfl, rfl, rfl,
    rfl, rfl⟩
  unfold PackedDataManager.Impl.Init
  simp only [hp, Bool.not_true, Bool.false_eq_true, if_false]
  exact hgen _ rfl

/-- C8: with the expected format version and a nested payload present, the
function returns exactly the result of `InitFromArray` applied to `manager_` with
`(mozc_data, mozc_data_magic)`, and `manager_` is left in the state that call
produces: the load succeeds if and only if the nested decode succeeds. -/
theorem C8_nested_payload_decides (env : Env) (self : PackedDataManager.Impl)
    (data : SystemDictionaryData) (payload : String)
    (hd : self.system_dictionary_data_ = some data)
    (hv : data.format_version = env.kSystemDictionaryFormatVersion)
    (hm : data.mozc_data = some payload) :
    ∃ r : Bool × PackedDataManager.Impl,
      InitializeWithSystemDictionaryData env self = some r ∧
      r.1 = (env.InitFromArray self.manager_ payload (data.mozc_data_magic.getD "")).1 ∧
      r.2.manager_ = (env.InitFromArray self.manager_ payload (data.mozc_data_magic.getD "")).2 ∧
      (r.1 = true ↔
        (env.InitFromArray self.manager_ payload (data.mozc_data_magic.getD "")).1 = true) := by
  obtain ⟨r, hr, -, -, -, -, -, -, -, hres⟩ := initialize_ok env self data hd hv
  have h1 : data.has_mozc_data = true := by
    simp [SystemDictionaryData.has_mozc_data, hm]
  have h2 : data.get_mozc_data = payload := by
    simp [SystemDictionaryData.get_mozc_data, hm]
  rw [h1, if_pos rfl, h2] at hres
  have hfst := congrArg Prod.fst hres
  have hsnd := congrArg Prod.snd hres
  exact ⟨r, hr, hfst, hsnd, by rw [show r.1 = _ from hfst]; rfl⟩

/-- C9: with the expected format version and no nested payload, the function
returns true and `manager_` is left exactly as it was, whatever
`mozc_data_magic` holds, and every table is built as for any other container:
the POS token table and the conjugation array hold the tokens and their forms
cell by cell, the rule-id table holds the rule ids as 16-bit values, the range
array holds every table's ranges followed by its terminator, the range table
array holds the starts, and the matcher is constructed from the rule-id table
and the range table array.  Reached through `Impl::Init` on a fresh object, the
result is the one of this function and `manager_` is still the freshly
constructed decoder. -/
theorem C9_no_nested_payload (env : Env) (self : PackedDataManager.Impl)
    (data : SystemDictionaryData)
    (hd : self.system_dictionary_data_ = some data)
    (hv : data.format_version = env.kSystemDictionaryFormatVersion)
    (hm : data.mozc_data = none) :
    (∃ (r : Bool × PackedDataManager.Impl) (toks : List UserPOS.POSToken)
        (arr : List UserPOS.ConjugationType) (tab : List Nat)
        (tabs : List (Option Nat)) (items : List Range),
      InitializeWithSystemDictionaryData env self = some r ∧
      r.1 = true ∧ r.2.manager_ = self.manager_ ∧
      r.2.pos_token_ = some toks ∧ toks.length = data.pos_tokens.length ∧
      r.2.range_tables_ = some tabs ∧ tabs.length = data.pos_matcher_data.range_tables.length ∧
      r.2.range_table_items_ = some items ∧
      items.length = (data.pos_matcher_data.range_tables.map (fun t => t.ranges.length + 1)).sum ∧
      r.2.pos_matcher_.isSome = true ∧
      r.2.conjugation_array_ = some arr ∧
      arr.length = (data.pos_tokens.map (fun t => t.conjugation_forms.length)).sum ∧
      r.2.rule_id_table_ = some tab ∧
      tab.length = data.pos_matcher_data.rule_id_table.length ∧
      r.2.pos_matcher_ = some { rule_id_table := tab, range_table := tabs } ∧
      r.2.system_dictionary_data_ = some data ∧
      (∀ (i : Nat) (t : SystemDictionaryData.PosToken), data.pos_tokens[i]? = some t →
        toks[i]? = some
          { pos := t.pos, conjugation_size := t.conjugation_forms.length,
            conjugation_form :=
              if t.conjugation_forms.length = 0 then none
              else some
                ((data.pos_tokens.take i).map (fun u => u.conjugation_forms.length)).sum }) ∧
      (∀ (i : Nat) (t : SystemDictionaryData.PosToken), data.pos_tokens[i]? = some t →
        ∀ (j : Nat) (f : SystemDictionaryData.PosToken.ConjugationType),
          t.conjugation_forms[j]? = some f →
          arr[((data.pos_tokens.take i).map (fun u => u.conjugation_forms.length)).sum + j]? =
            some { key_suffix := f.key_suffix, value_suffix := f.value_suffix, id := f.id }) ∧
      (∀ (i x : Nat), data.pos_matcher_data.rule_id_table[i]? = some x →
        tab[i]? = some (x % 2 ^ 16)) ∧
      (∀ (i : Nat) (t : SystemDictionaryData.PosMatcherData.RangeTable),
        data.pos_matcher_data.range_tables[i]? = some t →
        tabs[i]? = some (some
          ((data.pos_matcher_data.range_tables.take i).map
            (fun u => u.ranges.length + 1)).sum)) ∧
      (∀ (i : Nat) (t : SystemDictionaryData.PosMatcherData.RangeTable),
        data.pos_matcher_data.range_tables[i]? = some t →
        ∀ (j : Nat) (x : SystemDictionaryData.PosMatcherData.RangeTable.Range),
          t.ranges[j]? = some x →
          items[((data.pos_matcher_data.range_tables.take i).map
              (fun u => u.ranges.length + 1)).sum + j]? =
            some { lower := x.lower % 2 ^ 16, upper := x.upper % 2 ^ 16 }) ∧
      (∀ (i : Nat) (t : SystemDictionaryData.PosMatcherData.RangeTable),
        data.pos_matcher_data.range_tables[i]? = some t →
        items[((data.pos_matcher_data.range_tables.take i).map
            (fun u => u.ranges.length + 1)).sum + t.ranges.length]? =
          some { lower := 0xFFFF, upper := 0xFFFF })) ∧
    ∀ bytes : String, env.ParseFromString bytes = (true, data) →
      ∃ impl : PackedDataManager.Impl,
        PackedDataManager.Impl.Init env (Impl env) bytes = some (true, impl) ∧
        InitializeWithSystemDictionaryData env
          { Impl env with system_dictionary_data_ := some data } = some (true, impl) ∧
        impl.manager_ = env.newDataManager := by
  have hgen : ∀ s : PackedDataManager.Impl, s.system_dictionary_data_ = some data →
      ∃ r : Bool × PackedDataManager.Impl,
        InitializeWithSystemDictionaryData env s = some r ∧ r.1 = true ∧
        r.2.manager_ = s.manager_ ∧ r.2.pos_matcher_.isSome = true ∧
        r.2.system_dictionary_data_ = some data := by
    intro s hs
    obtain ⟨r, hr, -, -, -, -, -, hmat, hdat, hres⟩ := initialize_ok env s data hs hv
    have h1 : data.has_mozc_data = false := by
      simp [SystemDictionaryData.has_mozc_data, hm]
    rw [h1] at hres
    exact ⟨r, hr, congrArg Prod.fst hres, congrArg Prod.snd hres, hmat, hdat⟩
  constructor
  · obtain ⟨r, hr, hok, hman, hmat, hdat⟩ := hgen self hd
    obtain ⟨r1, toks, arr, hr1, htok, harr, hlt, hla, htoks, hcells⟩ :=
      initialize_pos env self data hd hv
    obtain ⟨r2, tabs, items, hr2, htab, hitems, hlt2, hli, hstart, hrng, hsent⟩ :=
      initialize_range env self data hd hv
    obtain ⟨r3, tab, tabs3, hr3, hrule, htab3, hmatcher, htabeq⟩ :=
      initialize_matcher env self data hd hv
    have e1 : r1 = r := Option.some.inj (hr1.symm.trans hr)
    have e2 : r2 = r := Option.some.inj (hr2.symm.trans hr)
    have e3 : r3 = r := Option.some.inj (hr3.symm.trans hr)
    subst e1 e2 e3
    have e4 : tabs3 = tabs := Option.some.inj (htab3.symm.trans htab)
    subst e4
    have hrlen : tab.length = data.pos_matcher_data.rule_id_table.length := by
      rw [htabeq, ruleIdLoop_length, List.length_replicate]
      rfl
    have hrcell : ∀ (i x : Nat), data.pos_matcher_data.rule_id_table[i]? = some x →
        tab[i]? = some (x % 2 ^ 16) := by
      intro i x hix
      have hi := lt_length_of_getElem? _ _ _ hix
      have hx : data.pos_matcher_data.rule_id_table_at i = x := getD_of_getElem? _ _ _ _ hix
      rw [htabeq, ruleIdLoop data _ (List.length_replicate _ _) _ (Nat.le_refl _) i hi, hx]
    exact ⟨_, toks, arr, tab, tabs3, items, hr, hok, hman, htok, hlt, htab, hlt2, hitems, hli,
      hmat, harr, hla, hrule, hrlen, hmatcher, hdat,
      fun i t hit => htoks i t hit, fun i t hit j f hjf => hcells i t hit j f hjf, hrcell,
      hstart, fun i t hit j x hjx => hrng i t hit j x hjx, fun i t hit => hsent i t hit⟩
  · intro bytes hp
    obtain ⟨r, hr, hok, hman, -, -⟩ :=
      hgen { Impl env with system_dictionary_data_ := some data } rfl
    have hr2 : InitializeWithSystemDictionaryData env
        { Impl env with system_dictionary_data_ := some data } = some (true, r.2) := by
      rw [hr, ← hok]
    refine ⟨r.2, ?_, hr2, hman⟩
    unfold PackedDataManager.Impl.Init
    simp only [hp, Bool.not_true, Bool.false_eq_true, if_false]
    exact hr2

/-- Both entry points of `Impl` return a result, whatever the parser yields. -/
theorem impl_init_total (env : Env) (self : PackedDataManager.Impl) (bytes : String) :
    (∃ r, PackedDataManager.Impl.Init env self bytes = some r) ∧
    (∃ r, PackedDataManager.Impl.InitWithZippedData env self bytes = some r) := by
  have hgen : ∀ s : PackedDataManager.Impl, ∀ d, s.system_dictionary_data_ = some d →
      ∃ r, InitializeWithSystemDictionaryData env s = some r := by
    intro s d hs
    by_cases hv : d.format_version = env.kSystemDictionaryFormatVersion
    · obtain ⟨r, hr, -⟩ := initialize_ok env s d hs hv
      exact ⟨r, hr⟩
    · refine ⟨(false, s), ?_⟩
      unfold InitializeWithSystemDictionaryData
      rw [hs]
      simp [hv]
  constructor
  · unfold PackedDataManager.Impl.Init
    dsimp only
    split
    · exact ⟨_, rfl⟩
    · exact hgen _ _ rfl
  · unfold PackedDataManager.Impl.InitWithZippedData
    dsimp only
    split
    · exact ⟨_, rfl⟩
    · exact hgen _ _ rfl

/-- C10: `PackedDataManager::Init` and `PackedDataManager::InitWithZippedData`
always return, and whenever either returns false the manager is left
unconstructed (`manager_impl_` empty), which is one of the two states the claim
allows; it never keeps the object it was building. -/
theorem C10_failed_load_leaves_no_impl (env : Env) (self : PackedDataManager)
    (bytes : String) :
    (∃ r : Bool × PackedDataManager, PackedDataManager.Init env self bytes = some r ∧
      (r.1 = false → (r.2 = self ∨ r.2.manager_impl_ = none) ∧ r.2.manager_impl_ = none)) ∧
    (∃ r : Bool × PackedDataManager,
      PackedDataManager.InitWithZippedData env self bytes = some r ∧
      (r.1 = false → (r.2 = self ∨ r.2.manager_impl_ = none) ∧ r.2.manager_impl_ = none)) := by
  obtain ⟨⟨r1, h1⟩, ⟨r2, h2⟩⟩ := impl_init_total env (Impl env) bytes
  constructor
  · unfold PackedDataManager.Init
    rw [h1]
    obtain ⟨b, impl⟩ := r1
    cases b
    · exact ⟨_, rfl, fun _ => ⟨Or.inr rfl, rfl⟩⟩
    · exact ⟨_, rfl, fun h => by cases h⟩
  · unfold PackedDataManager.InitWithZippedData
    rw [h2]
    obtain ⟨b, impl⟩ := r2
    cases b
    · exact ⟨_, rfl, fun _ => ⟨Or.inr rfl, rfl⟩⟩
    · exact ⟨_, rfl, fun h => by cases h⟩

/-! ## The theorems at concrete inputs -/

/-- C1 at `sampleData`: its third token (one form, after a token with two forms
and a token with none) is rebuilt with size 1, start 2 and its record at cell 2. -/
theorem C1_witness_third_token :
    (sampleImpl sampleData).system_dictionary_data_ = some sampleData ∧
    sampleData.format_version = sampleEnv.kSystemDictionaryFormatVersion ∧
    ∃ (r : Bool × PackedDataManager.Impl) (toks : List UserPOS.POSToken)
      (arr : List UserPOS.ConjugationType),
      InitializeWithSystemDictionaryData sampleEnv (sampleImpl sampleData) = some r ∧
      r.2.pos_token_ = some toks ∧ r.2.conjugation_array_ = some arr ∧
      ∃ tok, toks[2]? = some tok ∧ tok.pos = some "c" ∧ tok.conjugation_size = 1 ∧
        tok.conjugation_form = some 2 ∧
        arr[2]? = some { key_suffix := none, value_suffix := none, id := 9 } := by
  refine ⟨rfl, rfl, ?_⟩
  obtain ⟨r, toks, arr, hr, ht, ha, h⟩ :=
    C1_pos_token_round_trip sampleEnv (sampleImpl sampleData) sampleData rfl rfl
  obtain ⟨tok, h1, h2, h3⟩ := h 2 _ rfl
  obtain ⟨h4, h5, h6⟩ := h3 (by decide)
  exact ⟨r, toks, arr, hr, ht, ha, tok, h1, h2, h4, h5, h6 0 _ rfl⟩

/-- C2 at `sampleData`: the conjugation array has 2 + 0 + 1 + 0 = 3 cells. -/
theorem C2_witness_three_cells :
    (sampleImpl sampleData).system_dictionary_data_ = some sampleData ∧
    sampleData.format_version = sampleEnv.kSystemDictionaryFormatVersion ∧
    ∃ (r : Bool × PackedDataManager.Impl) (toks : List UserPOS.POSToken)
      (arr : List UserPOS.ConjugationType),
      InitializeWithSystemDictionaryData sampleEnv (sampleImpl sampleData) = some r ∧
      r.2.pos_token_ = some toks ∧ r.2.conjugation_array_ = some arr ∧
      arr.length = 3 ∧ (toks.map (fun tok => tok.conjugation_size)).sum = 3 := by
  refine ⟨rfl, rfl, ?_⟩
  obtain ⟨r, toks, arr, hr, ht, ha, h1, h2⟩ :=
    C2_conjugation_array_length sampleEnv (sampleImpl sampleData) sampleData rfl rfl
  exact ⟨r, toks, arr, hr, ht, ha, h1, h2.trans h1⟩

/-- C3 at `sampleData`: the second token has no form and a null reference, the
third has one form and a reference that is not null. -/
theorem C3_witness_null_between_forms :
    (sampleImpl sampleData).system_dictionary_data_ = some sampleData ∧
    sampleData.format_version = sampleEnv.kSystemDictionaryFormatVersion ∧
    ∃ (r : Bool × PackedDataManager.Impl) (toks : List UserPOS.POSToken),
      InitializeWithSystemDictionaryData sampleEnv (sampleImpl sampleData) = some r ∧
      r.2.pos_token_ = some toks ∧
      (∃ tok, toks[1]? = some tok ∧ tok.conjugation_form = none ∧ tok.conjugation_size = 0) ∧
      (∃ tok, toks[2]? = some tok ∧ tok.conjugation_form ≠ none) := by
  refine ⟨rfl, rfl, ?_⟩
  obtain ⟨r, toks, hr, ht, h⟩ :=
    C3_null_conjugation_iff_empty sampleEnv (sampleImpl sampleData) sampleData rfl rfl
  obtain ⟨tok1, a1, a2, a3⟩ := h 1 _ rfl
  obtain ⟨tok2, b1, b2, -⟩ := h 2 _ rfl
  exact ⟨r, toks, hr, ht, ⟨tok1, a1, a2.mpr rfl, a3 (a2.mpr rfl)⟩,
    ⟨tok2, b1, fun hn => absurd (b2.mp hn) (by decide)⟩⟩

/-- C4 at `sampleData`: the second range table is empty and starts at cell 3,
which holds the terminator. -/
theorem C4_witness_empty_table :
    (sampleImpl sampleData).system_dictionary_data_ = some sampleData ∧
    sampleData.format_version = sampleEnv.kSystemDictionaryFormatVersion ∧
    ∃ (r : Bool × PackedDataManager.Impl) (tabs : List (Option Nat)) (items : List Range),
      InitializeWithSystemDictionaryData sampleEnv (sampleImpl sampleData) = some r ∧
      r.2.range_tables_ = some tabs ∧ r.2.range_table_items_ = some items ∧
      ∃ start, tabs[1]? = some (some start) ∧
        items[start + 0]? = some { lower := 0xFFFF, upper := 0xFFFF } ∧
        start + 0 < items.length := by
  refine ⟨rfl, rfl, ?_⟩
  obtain ⟨r, tabs, items, hr, ht, hi, h⟩ :=
    C4_sentinel_after_ranges sampleEnv (sampleImpl sampleData) sampleData rfl rfl
  obtain ⟨start, h1, h2, h3, -⟩ := h 1 _ rfl
  exact ⟨r, tabs, items, hr, ht, hi, start, h1, h2, h3⟩

/-- C5 (amended) at `sampleData`: in the first range table, whose two ranges are
not the pair `(0xFFFF, 0xFFFF)`, the terminator is at offset 2 and no earlier. -/
theorem C5_witness_first_table :
    (sampleImpl sampleData).system_dictionary_data_ = some sampleData ∧
    sampleData.format_version = sampleEnv.kSystemDictionaryFormatVersion ∧
    ∃ (r : Bool × PackedDataManager.Impl) (tabs : List (Option Nat)) (items : List Range),
      InitializeWithSystemDictionaryData sampleEnv (sampleImpl sampleData) = some r ∧
      r.2.range_tables_ = some tabs ∧ r.2.range_table_items_ = some items ∧
      ∃ start, tabs[0]? = some (some start) ∧
        items[start + 2]? = some { lower := 0xFFFF, upper := 0xFFFF } ∧
        ∀ j, items[start + j]? = some { lower := 0xFFFF, upper := 0xFFFF } → 2 ≤ j := by
  refine ⟨rfl, rfl, ?_⟩
  obtain ⟨r, tabs, items, hr, ht, hi, h⟩ :=
    C5_sentinel_is_first_terminator sampleEnv (sampleImpl sampleData) sampleData rfl rfl
  obtain ⟨start, h1, -, h3, h4⟩ := h 0 _ rfl (by decide)
  exact ⟨r, tabs, items, hr, ht, hi, start, h1, h3, h4⟩

/-- C6 at `sampleData`: the third range table starts at cell (2 + 1) + (0 + 1) = 4,
and in the first table the range `(5, 65537)` is stored as `(5, 1)`. -/
theorem C6_witness_starts_and_truncation :
    (sampleImpl sampleData).system_dictionary_data_ = some sampleData ∧
    sampleData.format_version = sampleEnv.kSystemDictionaryFormatVersion ∧
    ∃ (r : Bool × PackedDataManager.Impl) (tabs : List (Option Nat)) (items : List Range),
      InitializeWithSystemDictionaryData sampleEnv (sampleImpl sampleData) = some r ∧
      r.2.range_tables_ = some tabs ∧ r.2.range_table_items_ = some items ∧
      tabs[2]? = some (some 4) ∧
      ∃ e, items[1]? = some e ∧ e.lower = 5 ∧ e.upper = 1 := by
  refine ⟨rfl, rfl, ?_⟩
  obtain ⟨r, tabs, items, hr, ht, hi, h⟩ :=
    C6_range_table_layout sampleEnv (sampleImpl sampleData) sampleData rfl rfl
  obtain ⟨h1, -⟩ := h 2 _ rfl
  obtain ⟨-, h2⟩ := h 0 _ rfl
  obtain ⟨e, e1, e2, e3, -⟩ := h2 1 _ rfl
  exact ⟨r, tabs, items, hr, ht, hi, h1, e, e1, e2, e3⟩

/-- C7 at `staleData` (format version 2 where 1 is expected, everything else
well formed): the function returns false and the object is unchanged. -/
theorem C7_witness_stale_version :
    (sampleImpl staleData).system_dictionary_data_ = some staleData ∧
    staleData.format_version ≠ sampleEnv.kSystemDictionaryFormatVersion ∧
    InitializeWithSystemDictionaryData sampleEnv (sampleImpl staleData) =
      some (false, sampleImpl staleData) :=
  ⟨rfl, by decide,
    (C7_format_version_mismatch sampleEnv (sampleImpl staleData) staleData rfl (by decide)).1⟩

/-- C8 at `sampleData`, whose nested payload carries the magic the sample
decoder accepts: the load succeeds. -/
theorem C8_witness_accepted_payload :
    (sampleImpl sampleData).system_dictionary_data_ = some sampleData ∧
    sampleData.format_version = sampleEnv.kSystemDictionaryFormatVersion ∧
    sampleData.mozc_data = some "MOZCdata" ∧
    ∃ r : Bool × PackedDataManager.Impl,
      InitializeWithSystemDictionaryData sampleEnv (sampleImpl sampleData) = some r ∧
      r.1 = true := by
  refine ⟨rfl, rfl, rfl, ?_⟩
  obtain ⟨r, hr, h1, -, -⟩ :=
    C8_nested_payload_decides sampleEnv (sampleImpl sampleData) sampleData "MOZCdata" rfl rfl rfl
  exact ⟨r, hr, h1.trans (by decide)⟩

/-- C9 at `lightData` (no nested payload, a magic string present): the load
succeeds, `manager_` is the freshly constructed decoder, and the tables hold the
contents of the container: the third token with size 1 and start 2, its form at
cell 2 of the conjugation array, the rule id 70000 as 4464, the third range
table starting at cell 4 with its range at cell 4 and its terminator at cell 5. -/
theorem C9_witness_light_container :
    (sampleImpl lightData).system_dictionary_data_ = some lightData ∧
    lightData.format_version = sampleEnv.kSystemDictionaryFormatVersion ∧
    lightData.mozc_data = none ∧ lightData.mozc_data_magic = some "MOZC" ∧
    ∃ (r : Bool × PackedDataManager.Impl) (toks : List UserPOS.POSToken)
        (arr : List UserPOS.ConjugationType) (tab : List Nat)
        (tabs : List (Option Nat)) (items : List Range),
      InitializeWithSystemDictionaryData sampleEnv (sampleImpl lightData) = some r ∧
      r.1 = true ∧ r.2.manager_ = sampleEnv.newDataManager ∧
      r.2.pos_token_ = some toks ∧ r.2.conjugation_array_ = some arr ∧
      r.2.rule_id_table_ = some tab ∧ r.2.range_tables_ = some tabs ∧
      r.2.range_table_items_ = some items ∧
      r.2.pos_matcher_ = some { rule_id_table := tab, range_table := tabs } ∧
      toks[2]? = some { pos := some "c", conjugation_size := 1, conjugation_form := some 2 } ∧
      arr[2]? = some { key_suffix := none, value_suffix := none, id := 9 } ∧
      tab[2]? = some 4464 ∧ tabs[2]? = some (some 4) ∧
      items[4]? = some { lower := 7, upper := 8 } ∧
      items[5]? = some { lower := 0xFFFF, upper := 0xFFFF } := by
  refine ⟨rfl, rfl, rfl, rfl, ?_⟩
  obtain ⟨⟨r, toks, arr, tab, tabs, items, hr, h1, h2, h3, -, h4, -, h5, -, -, h6, -, h7, -,
    h8, -, c1, c2, c3, c4, c5, c6⟩, -⟩ :=
    C9_no_nested_payload sampleEnv (sampleImpl lightData) lightData rfl rfl rfl
  exact ⟨r, toks, arr, tab, tabs, items, hr, h1, h2, h3, h6, h7, h4, h5, h8,
    c1 2 _ rfl, c2 2 _ rfl 0 _ rfl, c3 2 70000 rfl, c4 2 _ rfl, c5 2 _ rfl 0 _ rfl,
    c6 2 _ rfl⟩

/-- C10 at a manager holding a loaded object and bytes the sample parser
rejects: `Init` returns false and leaves the manager unconstructed. -/
theorem C10_witness_rejected_bytes :
    ∃ r : Bool × PackedDataManager,
      PackedDataManager.Init sampleEnv { manager_impl_ := some (sampleImpl sampleData) }
        "broken" = some r ∧
      r.1 = false ∧ r.2.manager_impl_ = none := by
  obtain ⟨⟨r, hr, h⟩, -⟩ := C10_failed_load_leaves_no_impl sampleEnv
    { manager_impl_ := some (sampleImpl sampleData) } "broken"
  have hf : r.1 = false := by
    have hc : (PackedDataManager.Init sampleEnv
        { manager_impl_ := some (sampleImpl sampleData) } "broken").map Prod.fst =
        some false := by decide
    rw [hr] at hc
    exact Option.some.inj hc
  exact ⟨r, hr, hf, (h hf).2⟩

/-! ## Entry points and the registry -/

/-- `PackedDataManager::Init` and `PackedDataManager::InitWithZippedData` always
return. -/
theorem packed_init_total (env : Env) (self : PackedDataManager) (bytes : String) :
    (∃ r, PackedDataManager.Init env self bytes = some r) ∧
    (∃ r, PackedDataManager.InitWithZippedData env self bytes = some r) := by
  obtain ⟨⟨r1, h1⟩, ⟨r2, h2⟩⟩ := impl_init_total env (Impl env) bytes
  constructor
  · unfold PackedDataManager.Init
    rw [h1]
    obtain ⟨b, impl⟩ := r1
    cases b <;> exact ⟨_, rfl⟩
  · unfold PackedDataManager.InitWithZippedData
    rw [h2]
    obtain ⟨b, impl⟩ := r2
    cases b <;> exact ⟨_, rfl⟩

/-- A returning `GetUserPosManager` returns the instance held by the slot of the
state it leaves. -/
theorem getUserPosManager_returned (env : Env) (Mmap_Open : String → Option String)
    (g g1 : Globals) (p : PackedDataManager)
    (h : PackedDataManager.GetUserPosManager env Mmap_Open g = some (Outcome.returned p g1)) :
    g1.g_data_manager = some p := by
  unfold PackedDataManager.GetUserPosManager at h
  dsimp only at h
  split at h
  · cases h
  · cases h
  · rename_i g2 hbody
    split at h
    · cases h
    · rename_i q hq
      injection h with h
      injection h with h1 h2
      subst h1 h2
      exact hq

/-- C11: when the raw parser on `b` and the gzip path on `z` yield the same
message (with the same outcome), `Init(b)` and `InitWithZippedData(z)` return the
same flag and leave the same state, at the level of `Impl` and of
`PackedDataManager`: both apply `InitializeWithSystemDictionaryData` to the
object holding the parsed message, and both return. -/
theorem C11_zipped_path_same_reconstruction (env : Env) (m : SystemDictionaryData)
    (ok : Bool) (b z : String)
    (hb : env.ParseFromString b = (ok, m))
    (hz : env.ParseFromCodedStream kDefaultTotalBytesLimit z = (ok, m)) :
    (∀ self : PackedDataManager.Impl,
      PackedDataManager.Impl.Init env self b =
        PackedDataManager.Impl.InitWithZippedData env self z ∧
      (ok = true → PackedDataManager.Impl.Init env self b =
        InitializeWithSystemDictionaryData env { self with system_dictionary_data_ := some m })) ∧
    (∀ s1 s2 : PackedDataManager,
      PackedDataManager.Init env s1 b = PackedDataManager.InitWithZippedData env s2 z) ∧
    ∀ s1 : PackedDataManager, ∃ r, PackedDataManager.Init env s1 b = some r := by
  have himpl : ∀ self : PackedDataManager.Impl,
      PackedDataManager.Impl.Init env self b =
        PackedDataManager.Impl.InitWithZippedData env self z := by
    intro self
    unfold PackedDataManager.Impl.Init PackedDataManager.Impl.InitWithZippedData
    rw [hb, hz]
  refine ⟨fun self => ⟨himpl self, fun hok => ?_⟩, fun s1 s2 => ?_,
    fun s1 => (packed_init_total env s1 b).1⟩
  · unfold PackedDataManager.Impl.Init
    rw [hb, hok]
    rfl
  · unfold PackedDataManager.Init PackedDataManager.InitWithZippedData
    rw [himpl]

/-- C12: the registry slot is a plain cell holding at most one instance: after
`RegisterPackedDataManager(p)` (null included) `GetPackedDataManager()` returns
`p`, a second register replaces the first, and `GetPackedDataManager` leaves the
global state as it is. -/
theorem C12_registry_set_read (g : Globals) (p q : Option PackedDataManager) :
    (GetPackedDataManager (RegisterPackedDataManager g p)).1 = p ∧
    (GetPackedDataManager (RegisterPackedDataManager (RegisterPackedDataManager g p) q)).1 = q ∧
    RegisterPackedDataManager (RegisterPackedDataManager g p) q =
      RegisterPackedDataManager g q ∧
    (GetPackedDataManager g).2 = g ∧
    (GetPackedDataManager (GetPackedDataManager g).2).1 = (GetPackedDataManager g).1 :=
  ⟨rfl, rfl, rfl, rfl, rfl⟩

/-- C13: `GetUserPosManager` called with an empty slot ends fatally, without
returning an instance, when the dataset flag is empty, when the file cannot be
mapped, and when `PackedDataManager::Init` on the mapped bytes returns false; in
the last case the state at the fatal check is the entry state, whose slot is
empty.  When `Init` returns true, the new instance is stored in the slot and is
the value returned. -/
theorem C13_empty_slot_load_or_fatal (env : Env) (Mmap_Open : String → Option String)
    (g : Globals) (hempty : g.g_data_manager = none) :
    (g.FLAGS_dataset = "" →
      PackedDataManager.GetUserPosManager env Mmap_Open g = some (Outcome.fatal g)) ∧
    (g.FLAGS_dataset ≠ "" → Mmap_Open g.FLAGS_dataset = none →
      PackedDataManager.GetUserPosManager env Mmap_Open g = some (Outcome.fatal g)) ∧
    (∀ (buffer : String) (r : Bool × PackedDataManager),
      g.FLAGS_dataset ≠ "" → Mmap_Open g.FLAGS_dataset = some buffer →
      PackedDataManager.Init env PackedDataManager.PackedDataManager buffer = some r →
      r.1 = false →
      PackedDataManager.GetUserPosManager env Mmap_Open g = some (Outcome.fatal g) ∧
      g.g_data_manager = none) ∧
    (∀ (buffer : String) (r : Bool × PackedDataManager),
      g.FLAGS_dataset ≠ "" → Mmap_Open g.FLAGS_dataset = some buffer →
      PackedDataManager.Init env PackedDataManager.PackedDataManager buffer = some r →
      r.1 = true →
      PackedDataManager.GetUserPosManager env Mmap_Open g =
        some (Outcome.returned r.2 { g with g_data_manager := some r.2 })) ∧
    ∃ o, PackedDataManager.GetUserPosManager env Mmap_Open g = some o := by
  have h1 : g.FLAGS_dataset = "" →
      PackedDataManager.GetUserPosManager env Mmap_Open g = some (Outcome.fatal g) := by
    intro hf
    unfold PackedDataManager.GetUserPosManager
    simp [hempty, hf]
  have h2 : g.FLAGS_dataset ≠ "" → Mmap_Open g.FLAGS_dataset = none →
      PackedDataManager.GetUserPosManager env Mmap_Open g = some (Outcome.fatal g) := by
    intro hf hm
    unfold PackedDataManager.GetUserPosManager
    simp [hempty, hf, hm]
  have h3 : ∀ (buffer : String) (dm : PackedDataManager),
      g.FLAGS_dataset ≠ "" → Mmap_Open g.FLAGS_dataset = some buffer →
      PackedDataManager.Init env PackedDataManager.PackedDataManager buffer = some (false, dm) →
      PackedDataManager.GetUserPosManager env Mmap_Open g = some (Outcome.fatal g) := by
    intro buffer dm hf hm hi
    unfold PackedDataManager.GetUserPosManager
    simp [hempty, hf, hm, hi]
  have h4 : ∀ (buffer : String) (dm : PackedDataManager),
      g.FLAGS_dataset ≠ "" → Mmap_Open g.FLAGS_dataset = some buffer →
      PackedDataManager.Init env PackedDataManager.PackedDataManager buffer = some (true, dm) →
      PackedDataManager.GetUserPosManager env Mmap_Open g =
        some (Outcome.returned dm { g with g_data_manager := some dm }) := by
    intro buffer dm hf hm hi
    unfold PackedDataManager.GetUserPosManager
    simp [hempty, hf, hm, hi, RegisterPackedDataManager]
  refine ⟨h1, h2, fun buffer r hf hm hi hr => ⟨?_, hempty⟩, fun buffer r hf hm hi hr => ?_, ?_⟩
  · obtain ⟨b, dm⟩ := r
    simp only at hr
    subst hr
    exact h3 buffer dm hf hm hi
  · obtain ⟨b, dm⟩ := r
    simp only at hr
    subst hr
    exact h4 buffer dm hf hm hi
  · by_cases hf : g.FLAGS_dataset = ""
    · exact ⟨_, h1 hf⟩
    · cases hm : Mmap_Open g.FLAGS_dataset with
      | none => exact ⟨_, h2 hf hm⟩
      | some buffer =>
        obtain ⟨⟨b, dm⟩, hi⟩ :=
          (packed_init_total env PackedDataManager.PackedDataManager buffer).1
        cases b
        · exact ⟨_, h3 buffer dm hf hm hi⟩
        · exact ⟨_, h4 buffer dm hf hm hi⟩

/-- C14: `GetUserPosManager` called with a non-empty slot returns the instance in
the slot and leaves the global state unchanged, for every file system, parser
and dataset flag (no load takes place).  Hence after a call that returned, every
further call returns the same instance in the same state, again for every file
system and parser: no second construction takes place. -/
theorem C14_filled_slot_no_load (g : Globals) (p : PackedDataManager)
    (hfull : g.g_data_manager = some p) :
    (∀ (env : Env) (Mmap_Open : String → Option String),
      PackedDataManager.GetUserPosManager env Mmap_Open g = some (Outcome.returned p g)) ∧
    (∀ (flag : String) (env : Env) (Mmap_Open : String → Option String),
      PackedDataManager.GetUserPosManager env Mmap_Open { g with FLAGS_dataset := flag } =
        some (Outcome.returned p { g with FLAGS_dataset := flag })) ∧
    (∀ (env : Env) (Mmap_Open : String → Option String) (g0 g1 : Globals)
        (p1 : PackedDataManager),
      PackedDataManager.GetUserPosManager env Mmap_Open g0 = some (Outcome.returned p1 g1) →
      ∀ (env2 : Env) (Mmap_Open2 : String → Option String),
        PackedDataManager.GetUserPosManager env2 Mmap_Open2 g1 =
          some (Outcome.returned p1 g1)) := by
  have hgen : ∀ (g : Globals) (p : PackedDataManager), g.g_data_manager = some p →
      ∀ (env : Env) (Mmap_Open : String → Option String),
      PackedDataManager.GetUserPosManager env Mmap_Open g = some (Outcome.returned p g) := by
    intro g p hg env Mmap_Open
    unfold PackedDataManager.GetUserPosManager
    simp [hg]
  refine ⟨hgen g p hfull, fun flag => hgen _ p hfull, ?_⟩
  intro env Mmap_Open g0 g1 p1 h env2 Mmap_Open2
  exact hgen g1 p1 (getUserPosManager_returned env Mmap_Open g0 g1 p1 h) env2 Mmap_Open2

/-! ## The nested decoder and the parsers -/

/-- A buffer the modelled decoder accepts is long enough and starts with the
magic. -/
theorem initFromArray_valid (kHeaderSize : Nat)
    (bindSections : DataManager → String → DataManager) (self : DataManager)
    (array magic : String)
    (h : (DataManager.InitFromArray kHeaderSize bindSections self array magic).1 = true) :
    ¬ array.data.length < magic.data.length + kHeaderSize ∧
      array.data.take magic.data.length = magic.data := by
  unfold DataManager.InitFromArray at h
  split at h
  · cases h
  · rename_i hlen
    split at h
    · cases h
    · rename_i hmag
      exact ⟨hlen, not_not.mp hmag⟩

/-- A buffer of the length of an accepted one that differs from it within the
first `len(magic)` bytes only is rejected, and the decoder state is unchanged. -/
theorem initFromArray_mismatch (kHeaderSize : Nat)
    (bindSections : DataManager → String → DataManager) (self0 self : DataManager)
    (b b' m : String)
    (hvalid : (DataManager.InitFromArray kHeaderSize bindSections self0 b m).1 = true)
    (hlen : b'.data.length = b.data.length)
    (hrest : b'.data.drop m.data.length = b.data.drop m.data.length)
    (hne : b' ≠ b) :
    DataManager.InitFromArray kHeaderSize bindSections self b' m = (false, self) := by
  obtain ⟨hl, hp⟩ := initFromArray_valid kHeaderSize bindSections self0 b m hvalid
  have hmis : b'.data.take m.data.length ≠ m.data := by
    intro heq
    apply hne
    apply String.ext
    rw [← List.take_append_drop m.data.length b'.data,
      ← List.take_append_drop m.data.length b.data, heq, hp, hrest]
  unfold DataManager.InitFromArray
  rw [if_neg (by rw [hlen]; exact hl), if_pos hmis]

/-- When the parser reports an error, `PackedDataManager::Init` returns false and
leaves the manager unconstructed; so does `InitWithZippedData`, which hands the
parser the limit `kDefaultTotalBytesLimit`. -/
theorem packed_init_parse_error (env : Env) (self : PackedDataManager) (bytes : String) :
    ((env.ParseFromString bytes).1 = false →
      PackedDataManager.Init env self bytes = some (false, { manager_impl_ := none })) ∧
    ((env.ParseFromCodedStream kDefaultTotalBytesLimit bytes).1 = false →
      PackedDataManager.InitWithZippedData env self bytes =
        some (false, { manager_impl_ := none })) := by
  constructor
  · intro h
    unfold PackedDataManager.Init PackedDataManager.Impl.Init
    simp [h]
  · intro h
    unfold PackedDataManager.InitWithZippedData PackedDataManager.Impl.InitWithZippedData
    simp [h]

/-- C15: with the blob decoder modelled from the spec, a blob `b'` that has the
length of a valid blob `b` for the magic `m` and differs from it only within the
first `len(m)` bytes is rejected by `InitFromArray(b', m)`, and the decoder state
is the one before the call (no section bound).  A packed container carrying `b'`
and `m` then fails to load, through `InitializeWithSystemDictionaryData` and
through `PackedDataManager::Init`.  The `ChromeOsDataManager` constructor calls
`InitFromArray` with the magic string literal without its terminating NUL, and
on the blob `b'` its `CHECK` fails. -/
theorem C15_magic_mismatch_rejected (kHeaderSize : Nat)
    (bindSections : DataManager → String → DataManager) (self0 : DataManager)
    (b b' m : String)
    (hvalid : (DataManager.InitFromArray kHeaderSize bindSections self0 b m).1 = true)
    (hlen : b'.data.length = b.data.length)
    (hrest : b'.data.drop m.data.length = b.data.drop m.data.length)
    (hne : b' ≠ b) :
    (∀ self : DataManager,
      DataManager.InitFromArray kHeaderSize bindSections self b' m = (false, self)) ∧
    (∀ (env : Env) (impl : PackedDataManager.Impl) (data : SystemDictionaryData),
      impl.system_dictionary_data_ = some data →
      data.format_version = env.kSystemDictionaryFormatVersion →
      data.mozc_data = some b' → data.mozc_data_magic = some m →
      ∃ r : Bool × PackedDataManager.Impl,
        InitializeWithSystemDictionaryData (withBlobDecoder env kHeaderSize bindSections) impl =
          some r ∧ r.1 = false ∧ r.2.manager_ = impl.manager_) ∧
    (∀ (env : Env) (s : PackedDataManager) (bytes : String) (data : SystemDictionaryData),
      env.ParseFromString bytes = (true, data) →
      data.format_version = env.kSystemDictionaryFormatVersion →
      data.mozc_data = some b' → data.mozc_data_magic = some m →
      PackedDataManager.Init (withBlobDecoder env kHeaderSize bindSections) s bytes =
        some (false, { manager_impl_ := none })) ∧
    (∀ (f : DataManager → String → String → Bool × DataManager) (newDataManager : DataManager)
        (literal blob : String),
      chromeos.StringPiece (chromeos.kMagicNumber literal)
        (chromeos.arraysize (chromeos.kMagicNumber literal) - 1) = literal ∧
      chromeos.ChromeOsDataManager.ChromeOsDataManager f newDataManager literal blob =
        if (f newDataManager blob literal).1 then
          some { manager_ := (f newDataManager blob literal).2 }
        else none) ∧
    (∀ newDataManager : DataManager,
      chromeos.ChromeOsDataManager.ChromeOsDataManager
        (DataManager.InitFromArray kHeaderSize bindSections) newDataManager m b' = none) := by
  have hrej := fun self : DataManager =>
    initFromArray_mismatch kHeaderSize bindSections self0 self b b' m hvalid hlen hrest hne
  have hmagic : ∀ literal : String,
      chromeos.StringPiece (chromeos.kMagicNumber literal)
        (chromeos.arraysize (chromeos.kMagicNumber literal) - 1) = literal := by
    intro literal
    apply String.ext
    simp [chromeos.StringPiece, chromeos.kMagicNumber, chromeos.arraysize]
  have himpl : ∀ (env : Env) (impl : PackedDataManager.Impl) (data : SystemDictionaryData),
      impl.system_dictionary_data_ = some data →
      data.format_version = env.kSystemDictionaryFormatVersion →
      data.mozc_data = some b' → data.mozc_data_magic = some m →
      ∃ r : Bool × PackedDataManager.Impl,
        InitializeWithSystemDictionaryData (withBlobDecoder env kHeaderSize bindSections) impl =
          some r ∧ r.1 = false ∧ r.2.manager_ = impl.manager_ := by
    intro env impl data hd hv hdata hmag
    obtain ⟨r, hr, -, -, -, -, -, -, -, hres⟩ :=
      initialize_ok (withBlobDecoder env kHeaderSize bindSections) impl data hd hv
    have h1 : data.has_mozc_data = true := by simp [SystemDictionaryData.has_mozc_data, hdata]
    have h2 : data.get_mozc_data = b' := by simp [SystemDictionaryData.get_mozc_data, hdata]
    have h3 : data.get_mozc_data_magic = m := by
      simp [SystemDictionaryData.get_mozc_data_magic, hmag]
    rw [h1, if_pos rfl, h2, h3] at hres
    have h4 : (withBlobDecoder env kHeaderSize bindSections).InitFromArray impl.manager_ b' m =
        (false, impl.manager_) := hrej impl.manager_
    rw [h4] at hres
    exact ⟨r, hr, congrArg Prod.fst hres, congrArg Prod.snd hres⟩
  refine ⟨hrej, himpl, ?_, fun f newDataManager literal blob => ⟨hmagic literal, ?_⟩, ?_⟩
  · intro env s bytes data hp hv hdata hmag
    obtain ⟨r, hr, hfalse, -⟩ := himpl env
      { Impl env with system_dictionary_data_ := some data } data rfl hv hdata hmag
    have hp2 : (withBlobDecoder env kHeaderSize bindSections).ParseFromString bytes =
        (true, data) := hp
    obtain ⟨flag, impl2⟩ := r
    simp only at hfalse
    subst hfalse
    unfold PackedDataManager.Init PackedDataManager.Impl.Init
    simp only [hp2, Bool.not_true, Bool.false_eq_true, if_false]
    have hr2 : InitializeWithSystemDictionaryData (withBlobDecoder env kHeaderSize bindSections)
        { Impl (withBlobDecoder env kHeaderSize bindSections) with
          system_dictionary_data_ := some data } = some (false, impl2) := hr
    rw [hr2]
  · unfold chromeos.ChromeOsDataManager.ChromeOsDataManager
    simp only [hmagic]
  · intro newDataManager
    unfold chromeos.ChromeOsDataManager.ChromeOsDataManager
    simp only [hmagic, hrej]
    rfl

/-- C16: the limit handed to the coded stream of the compressed entry is
`64 << 20 = 67108864` bytes, the ceiling the raw entry has by default; in both
entries a parser error makes the load return false; hence, with the parsers
modelled from the spec, a container whose decoded body exceeds 64 MiB fails to
load through `Init` and through `InitWithZippedData`. -/
theorem C16_oversized_body_rejected (env : Env) (ungzip : String → Option String)
    (decode : String → Bool × SystemDictionaryData) :
    kDefaultTotalBytesLimit = 67108864 ∧ kProtobufTotalBytesLimit = kDefaultTotalBytesLimit ∧
    (∀ (env0 : Env) (self : PackedDataManager) (bytes : String),
      ((env0.ParseFromString bytes).1 = false →
        PackedDataManager.Init env0 self bytes = some (false, { manager_impl_ := none })) ∧
      ((env0.ParseFromCodedStream 67108864 bytes).1 = false →
        PackedDataManager.InitWithZippedData env0 self bytes =
          some (false, { manager_impl_ := none }))) ∧
    (∀ (self : PackedDataManager) (body : String), 67108864 < body.length →
      PackedDataManager.Init (withBudgetParsers env ungzip decode) self body =
        some (false, { manager_impl_ := none })) ∧
    (∀ (self : PackedDataManager) (zipped body : String),
      ungzip zipped = some body → 67108864 < body.length →
      PackedDataManager.InitWithZippedData (withBudgetParsers env ungzip decode) self zipped =
        some (false, { manager_impl_ := none })) := by
  have hk : kDefaultTotalBytesLimit = 67108864 := by decide
  have hp : kProtobufTotalBytesLimit = 67108864 := by decide
  refine ⟨hk, hp.trans hk.symm, fun env0 self bytes => ?_, fun self body hbig => ?_,
    fun self zipped body hz hbig => ?_⟩
  · have h := packed_init_parse_error env0 self bytes
    rw [hk] at h
    exact h
  · apply (packed_init_parse_error _ self body).1
    show (specParseFromString decode body).1 = false
    unfold specParseFromString budgetParse
    rw [hp, if_pos hbig]
  · apply (packed_init_parse_error _ self zipped).2
    show (specParseFromCodedStream ungzip decode kDefaultTotalBytesLimit zipped).1 = false
    unfold specParseFromCodedStream budgetParse
    rw [hz, hk]
    simp only [if_pos hbig]

/-! ## The rule-id table and the matcher -/

/-- C17: with the expected format version, the rebuilt rule-id table has as
many entries as the container has rule ids, entry `i` is the `i`-th rule id
stored as a 16-bit value (the rule id itself when at most `0xFFFF`), and the
matcher is constructed from this table and the array of the `T` range-table
starts. -/
theorem C17_rule_id_table_and_matcher (env : Env) (self : PackedDataManager.Impl)
    (data : SystemDictionaryData)
    (hd : self.system_dictionary_data_ = some data)
    (hv : data.format_version = env.kSystemDictionaryFormatVersion) :
    ∃ (r : Bool × PackedDataManager.Impl) (tab : List Nat) (tabs : List (Option Nat)),
      InitializeWithSystemDictionaryData env self = some r ∧
      r.2.rule_id_table_ = some tab ∧ r.2.range_tables_ = some tabs ∧
      tab.length = data.pos_matcher_data.rule_id_table.length ∧
      (∀ (i x : Nat), data.pos_matcher_data.rule_id_table[i]? = some x →
        tab[i]? = some (x % 2 ^ 16) ∧ (x ≤ 0xFFFF → tab[i]? = some x)) ∧
      r.2.pos_matcher_ = some { rule_id_table := tab, range_table := tabs } ∧
      tabs.length = data.pos_matcher_data.range_tables.length ∧
      ∀ (i : Nat) (t : SystemDictionaryData.PosMatcherData.RangeTable),
        data.pos_matcher_data.range_tables[i]? = some t →
        tabs[i]? = some (some
          ((data.pos_matcher_data.range_tables.take i).map (fun u => u.ranges.length + 1)).sum) := by
  obtain ⟨r, tab, tabs, hr, htab, htabs, hmat, htabeq⟩ := initialize_matcher env self data hd hv
  obtain ⟨r2, tabs2, items, hr2, htabs2, -, hlen, -, hstart, -⟩ :=
    initialize_range env self data hd hv
  have e1 : r2 = r := Option.some.inj (hr2.symm.trans hr)
  subst e1
  have e2 : tabs2 = tabs := Option.some.inj (htabs2.symm.trans htabs)
  subst e2
  have hcell : ∀ (i x : Nat), data.pos_matcher_data.rule_id_table[i]? = some x →
      tab[i]? = some (x % 2 ^ 16) := by
    intro i x hix
    have hi := lt_length_of_getElem? _ _ _ hix
    have hx : data.pos_matcher_data.rule_id_table_at i = x := getD_of_getElem? _ _ _ _ hix
    rw [htabeq, ruleIdLoop data _ (List.length_replicate _ _) _ (Nat.le_refl _) i hi, hx]
  refine ⟨r2, tab, tabs2, hr, htab, htabs, ?_, fun i x hix => ⟨hcell i x hix, fun hle => ?_⟩,
    hmat, hlen, hstart⟩
  · rw [htabeq, ruleIdLoop_length, List.length_replicate]
    rfl
  · rw [hcell i x hix, Nat.mod_eq_of_lt (by omega)]

/-! ## The record of the stores -/

theorem mem_storesUpTo {φ : Type} (fields : List φ) (n : Nat) (e : Nat × φ) :
    e ∈ storesUpTo fields n ↔ e.1 < n ∧ e.2 ∈ fields := by
  induction n with
  | zero => simp [storesUpTo]
  | succ n ih =>
    obtain ⟨i, f⟩ := e
    simp only [storesUpTo, List.mem_append, ih, List.mem_map, Prod.mk.injEq]
    constructor
    · rintro (⟨h1, h2⟩ | ⟨a, ha, h1, h2⟩)
      · exact ⟨by omega, h2⟩
      · subst h1 h2
        exact ⟨by omega, ha⟩
    · rintro ⟨h1, h2⟩
      by_cases hi : i < n
      · exact Or.inl ⟨hi, h2⟩
      · exact Or.inr ⟨f, h2, by omega, rfl⟩

theorem nodup_storesUpTo {φ : Type} (fields : List φ) (hf : fields.Nodup) (n : Nat) :
    (storesUpTo fields n).Nodup := by
  induction n with
  | zero => simp [storesUpTo]
  | succ n ih =>
    simp only [storesUpTo]
    rw [List.nodup_append]
    refine ⟨ih, ?_, ?_⟩
    · exact hf.map (fun a b h => (Prod.mk.inj h).2)
    · intro e h1 h2
      rw [mem_storesUpTo] at h1
      rw [List.mem_map] at h2
      obtain ⟨a, -, rfl⟩ := h2
      exact Nat.lt_irrefl _ h1.1

/-- In a record `storesUpTo fields n` every store is to a cell below `n`, no
store occurs twice, and every field of every cell below `n` is stored to. -/
theorem storesUpTo_once {φ : Type} (fields : List φ) (hf : fields.Nodup) (n : Nat) :
    (∀ e, e ∈ storesUpTo fields n → e.1 < n) ∧
    (storesUpTo fields n).Nodup ∧
    (∀ i f, i < n → f ∈ fields → (i, f) ∈ storesUpTo fields n) :=
  ⟨fun e he => ((mem_storesUpTo fields n e).mp he).1, nodup_storesUpTo fields hf n,
    fun i f hi hfm => (mem_storesUpTo fields n (i, f)).mpr ⟨hi, hfm⟩⟩

theorem sum_map_succ {α : Type} (l : List α) (f : α → Nat) :
    (l.map (fun t => f t + 1)).sum = (l.map f).sum + l.length := by
  induction l with
  | nil => rfl
  | cons a l ih => simp only [List.map_cons, List.sum_cons, List.length_cons, ih]; omega

namespace PackedDataManager.Impl

theorem conjugationFormBodyTraced_eq (t : SystemDictionaryData.PosToken) (j : Nat)
    (s : Traced UserPOS.ConjugationType ConjugationField × Nat) :
    conjugationFormBodyTraced t j s =
      ({ cells := (conjugationFormBody t j (s.1.cells, s.2)).1,
         log := s.1.log ++ conjugationFields.map (fun f => (s.2, f)) }, s.2 + 1) := by
  unfold conjugationFormBodyTraced conjugationFormBody Traced.store conjugationFields
  dsimp only
  cases hk : (t.conjugation_forms_at j).key_suffix <;>
    cases hv : (t.conjugation_forms_at j).value_suffix <;> simp

/-- The recorded inner loop computes the array and index of the plain inner
loop, and extends a record `storesUpTo _ idx` to `storesUpTo _ (idx + m)`. -/
theorem conjugationFormLoopTraced (t : SystemDictionaryData.PosToken)
    (a : Traced UserPOS.ConjugationType ConjugationField) (idx m : Nat) :
    ((forLoop m (conjugationFormBodyTraced t) (a, idx)).1.cells,
      (forLoop m (conjugationFormBodyTraced t) (a, idx)).2) =
      forLoop m (conjugationFormBody t) (a.cells, idx) ∧
    (a.log = storesUpTo conjugationFields idx →
      (forLoop m (conjugationFormBodyTraced t) (a, idx)).1.log =
        storesUpTo conjugationFields (idx + m)) := by
  induction m with
  | zero => exact ⟨rfl, fun h => h⟩
  | succ m ih =>
    obtain ⟨he, hl⟩ := ih
    have hidx : (forLoop m (conjugationFormBodyTraced t) (a, idx)).2 = idx + m := by
      have := congrArg Prod.snd he
      simp only at this
      rw [this, (conjugationFormLoop t a.cells idx m).1]
    rw [forLoop_succ, forLoop_succ, conjugationFormBodyTraced_eq, ← he]
    refine ⟨rfl, fun h => ?_⟩
    simp only
    rw [hl h, hidx]
    rfl

theorem posTokenBodyTraced_erase (data : SystemDictionaryData) (i : Nat) (s : PosLoopTraced) :
    (posTokenBodyTraced data i s).erase = posTokenBody data i s.erase ∧
    (s.conjugation_array_.log = storesUpTo conjugationFields s.conjugation_index →
      (posTokenBodyTraced data i s).conjugation_array_.log =
        storesUpTo conjugationFields (posTokenBodyTraced data i s).conjugation_index) := by
  obtain ⟨he, hl⟩ := conjugationFormLoopTraced (data.pos_tokens_at i) s.conjugation_array_
    s.conjugation_index (data.pos_tokens_at i).conjugation_forms_size
  have h1 := congrArg Prod.fst he
  have h2 := congrArg Prod.snd he
  simp only at h1 h2
  constructor
  · unfold posTokenBodyTraced posTokenBody PosLoopTraced.erase
    simp only [h1, h2]
  · intro h
    have hidx := (conjugationFormLoop (data.pos_tokens_at i) s.conjugation_array_.cells
      s.conjugation_index (data.pos_tokens_at i).conjugation_forms_size).1
    show (forLoop _ (conjugationFormBodyTraced _) _).1.log =
      storesUpTo conjugationFields (forLoop _ (conjugationFormBodyTraced _) _).2
    rw [hl h, h2, hidx]

/-- The recorded POS token loop computes the state of the plain loop, and its
record is `storesUpTo _ conjugation_index` after every iteration. -/
theorem posTokenLoopTraced_erase (data : SystemDictionaryData) (s0 : PosLoopTraced)
    (h0 : s0.conjugation_array_.log = storesUpTo conjugationFields s0.conjugation_index)
    (n : Nat) :
    (forLoop n (posTokenBodyTraced data) s0).erase = forLoop n (posTokenBody data) s0.erase ∧
    (forLoop n (posTokenBodyTraced data) s0).conjugation_array_.log =
      storesUpTo conjugationFields (forLoop n (posTokenBodyTraced data) s0).conjugation_index := by
  induction n with
  | zero => exact ⟨rfl, h0⟩
  | succ n ih =>
    obtain ⟨he, hl⟩ := ih
    obtain ⟨he2, hl2⟩ := posTokenBodyTraced_erase data n (forLoop n (posTokenBodyTraced data) s0)
    rw [forLoop_succ, forLoop_succ, he2, he]
    exact ⟨rfl, hl2 hl⟩

theorem rangeBodyTraced_eq (t : SystemDictionaryData.PosMatcherData.RangeTable) (j : Nat)
    (s : Traced Range RangeField × Nat) :
    rangeBodyTraced t j s =
      ({ cells := (rangeBody t j (s.1.cells, s.2)).1,
         log := s.1.log ++ rangeFields.map (fun f => (s.2, f)) }, s.2 + 1) := by
  unfold rangeBodyTraced rangeBody Traced.store rangeFields
  simp

/-- The recorded inner range loop computes the array and index of the plain
inner loop, and extends a record `storesUpTo _ idx` to `storesUpTo _ (idx + m)`. -/
theorem rangeLoopTraced (t : SystemDictionaryData.PosMatcherData.RangeTable)
    (a : Traced Range RangeField) (idx m : Nat) :
    ((forLoop m (rangeBodyTraced t) (a, idx)).1.cells,
      (forLoop m (rangeBodyTraced t) (a, idx)).2) =
      forLoop m (rangeBody t) (a.cells, idx) ∧
    (a.log = storesUpTo rangeFields idx →
      (forLoop m (rangeBodyTraced t) (a, idx)).1.log = storesUpTo rangeFields (idx + m)) := by
  induction m with
  | zero => exact ⟨rfl, fun h => h⟩
  | succ m ih =>
    obtain ⟨he, hl⟩ := ih
    have hidx : (forLoop m (rangeBodyTraced t) (a, idx)).2 = idx + m := by
      have := congrArg Prod.snd he
      simp only at this
      rw [this, (rangeLoop t a.cells idx m).1]
    rw [forLoop_succ, forLoop_succ, rangeBodyTraced_eq, ← he]
    refine ⟨rfl, fun h => ?_⟩
    simp only
    rw [hl h, hidx]
    rfl

theorem rangeTableBodyTraced_erase (md : SystemDictionaryData.PosMatcherData) (i : Nat)
    (s : RangeLoopTraced) :
    (rangeTableBodyTraced md i s).erase = rangeTableBody md i s.erase ∧
    (s.range_table_items_.log = storesUpTo rangeFields s.range_index →
      (rangeTableBodyTraced md i s).range_table_items_.log =
        storesUpTo rangeFields (rangeTableBodyTraced md i s).range_index) := by
  obtain ⟨he, hl⟩ := rangeLoopTraced (md.range_tables_at i) s.range_table_items_
    s.range_index (md.range_tables_at i).ranges_size
  have h1 := congrArg Prod.fst he
  have h2 := congrArg Prod.snd he
  simp only at h1 h2
  constructor
  · unfold rangeTableBodyTraced rangeTableBody RangeLoopTraced.erase Traced.store
    simp only [h1, h2]
  · intro h
    have hidx := (rangeLoop (md.range_tables_at i) s.range_table_items_.cells
      s.range_index (md.range_tables_at i).ranges_size).1
    show ((forLoop _ (rangeBodyTraced _) _).1.log ++ [((forLoop _ (rangeBodyTraced _) _).2,
        RangeField.lower)]) ++ [((forLoop _ (rangeBodyTraced _) _).2, RangeField.upper)] =
      storesUpTo rangeFields ((forLoop _ (rangeBodyTraced _) _).2 + 1)
    rw [hl h, h2, hidx]
    simp [storesUpTo, rangeFields]

/-- The recorded range table loop computes the state of the plain loop, and its
record is `storesUpTo _ range_index` after every iteration. -/
theorem rangeTableLoopTraced_erase (md : SystemDictionaryData.PosMatcherData)
    (s0 : RangeLoopTraced)
    (h0 : s0.range_table_items_.log = storesUpTo rangeFields s0.range_index) (n : Nat) :
    (forLoop n (rangeTableBodyTraced md) s0).erase = forLoop n (rangeTableBody md) s0.erase ∧
    (forLoop n (rangeTableBodyTraced md) s0).range_table_items_.log =
      storesUpTo rangeFields (forLoop n (rangeTableBodyTraced md) s0).range_index := by
  induction n with
  | zero => exact ⟨rfl, h0⟩
  | succ n ih =>
    obtain ⟨he, hl⟩ := ih
    obtain ⟨he2, hl2⟩ := rangeTableBodyTraced_erase md n (forLoop n (rangeTableBodyTraced md) s0)
    rw [forLoop_succ, forLoop_succ, he2, he]
    exact ⟨rfl, hl2 hl⟩

/-- The recorded POS token loop of a run: its arrays are the ones the run
leaves, the running index ends at the length of the conjugation array, and the
record is `storesUpTo _` of that length. -/
theorem posTokenLoopTraced_run (env : Env) (self : PackedDataManager.Impl)
    (data : SystemDictionaryData)
    (hd : self.system_dictionary_data_ = some data)
    (hv : data.format_version = env.kSystemDictionaryFormatVersion) :
    ∃ (r : Bool × PackedDataManager.Impl) (arr : List UserPOS.ConjugationType),
      InitializeWithSystemDictionaryData env self = some r ∧
      r.2.pos_token_ = some (posTokenLoopTraced env data).pos_token_ ∧
      r.2.conjugation_array_ = some arr ∧
      (posTokenLoopTraced env data).conjugation_array_.cells = arr ∧
      (posTokenLoopTraced env data).conjugation_index = arr.length ∧
      (posTokenLoopTraced env data).conjugation_array_.log =
        storesUpTo conjugationFields arr.length := by
  obtain ⟨r, hr, htok, harr, -⟩ := initialize_ok env self data hd hv
  obtain ⟨he, hl⟩ := posTokenLoopTraced_erase data
    { pos_token_ := List.replicate data.pos_tokens_size env.junk_pos_token,
      conjugation_array_ :=
        { cells := List.replicate (forLoop data.pos_tokens_size (conjugationCountBody data) 0)
            env.junk_conjugation, log := [] },
      conjugation_index := 0 } rfl data.pos_tokens_size
  have hcount := conjugationCount_eq data data.pos_tokens_size
  obtain ⟨hidx, -, hla, -, -⟩ := posTokenLoop data
    (List.replicate data.pos_tokens_size env.junk_pos_token)
    (List.replicate (forLoop data.pos_tokens_size (conjugationCountBody data) 0)
      env.junk_conjugation)
    (List.length_replicate _ _) (by rw [List.length_replicate, hcount])
    data.pos_tokens_size (Nat.le_refl _)
  have hTP : (posTokenLoopTraced env data).erase =
      forLoop data.pos_tokens_size (posTokenBody data)
        ⟨List.replicate data.pos_tokens_size env.junk_pos_token,
          List.replicate (forLoop data.pos_tokens_size (conjugationCountBody data) 0)
            env.junk_conjugation, 0⟩ := he
  have hlog : (posTokenLoopTraced env data).conjugation_array_.log =
      storesUpTo conjugationFields (posTokenLoopTraced env data).conjugation_index := hl
  have e1 : (posTokenLoopTraced env data).pos_token_ = _ := congrArg PosLoop.pos_token_ hTP
  have e2 : (posTokenLoopTraced env data).conjugation_array_.cells = _ :=
    congrArg PosLoop.conjugation_array_ hTP
  have e3 : (posTokenLoopTraced env data).conjugation_index = _ :=
    congrArg PosLoop.conjugation_index hTP
  rw [List.length_replicate] at hla
  have hend : (posTokenLoopTraced env data).conjugation_index =
      (forLoop data.pos_tokens_size (posTokenBody data)
        ⟨List.replicate data.pos_tokens_size env.junk_pos_token,
          List.replicate (forLoop data.pos_tokens_size (conjugationCountBody data) 0)
            env.junk_conjugation, 0⟩).conjugation_array_.length := by
    rw [e3, hidx, hla, hcount]
  refine ⟨r, _, hr, ?_, harr, e2, hend, ?_⟩
  · rw [htok, e1]
  · rw [hlog, hend]

/-- The recorded range table loop of a run: its arrays are the ones the run
leaves, the running index ends at the length of the range array, and the record
is `storesUpTo _` of that length. -/
theorem rangeTableLoopTraced_run (env : Env) (self : PackedDataManager.Impl)
    (data : SystemDictionaryData)
    (hd : self.system_dictionary_data_ = some data)
    (hv : data.format_version = env.kSystemDictionaryFormatVersion) :
    ∃ (r : Bool × PackedDataManager.Impl) (items : List Range),
      InitializeWithSystemDictionaryData env self = some r ∧
      r.2.range_tables_ = some (rangeTableLoopTraced env data).range_tables_ ∧
      r.2.range_table_items_ = some items ∧
      (rangeTableLoopTraced env data).range_table_items_.cells = items ∧
      (rangeTableLoopTraced env data).range_index = items.length ∧
      (rangeTableLoopTraced env data).range_table_items_.log =
        storesUpTo rangeFields items.length := by
  obtain ⟨r, hr, -, -, -, htab, hitems, -⟩ := initialize_ok env self data hd hv
  obtain ⟨he, hl⟩ := rangeTableLoopTraced_erase data.pos_matcher_data
    { range_tables_ :=
        List.replicate data.pos_matcher_data.range_tables_size env.junk_range_table,
      range_table_items_ :=
        { cells := List.replicate (forLoop data.pos_matcher_data.range_tables_size
            (rangeCountBody data.pos_matcher_data) 0 + data.pos_matcher_data.range_tables_size)
            env.junk_range, log := [] },
      range_index := 0 } rfl data.pos_matcher_data.range_tables_size
  have hcount := rangeItems_length data.pos_matcher_data
    data.pos_matcher_data.range_tables_size
  obtain ⟨hidx, -, hla, -, -, -⟩ := rangeTableLoop data.pos_matcher_data
    (List.replicate data.pos_matcher_data.range_tables_size env.junk_range_table)
    (List.replicate (forLoop data.pos_matcher_data.range_tables_size
      (rangeCountBody data.pos_matcher_data) 0 + data.pos_matcher_data.range_tables_size)
      env.junk_range)
    (List.length_replicate _ _) (by rw [List.length_replicate, hcount])
    data.pos_matcher_data.range_tables_size (Nat.le_refl _)
  have hTP : (rangeTableLoopTraced env data).erase =
      forLoop data.pos_matcher_data.range_tables_size (rangeTableBody data.pos_matcher_data)
        ⟨List.replicate data.pos_matcher_data.range_tables_size env.junk_range_table,
          List.replicate (forLoop data.pos_matcher_data.range_tables_size
            (rangeCountBody data.pos_matcher_data) 0 + data.pos_matcher_data.range_tables_size)
            env.junk_range, 0⟩ := he
  have hlog : (rangeTableLoopTraced env data).range_table_items_.log =
      storesUpTo rangeFields (rangeTableLoopTraced env data).range_index := hl
  have e1 : (rangeTableLoopTraced env data).range_tables_ = _ :=
    congrArg RangeLoop.range_tables_ hTP
  have e2 : (rangeTableLoopTraced env data).range_table_items_.cells = _ :=
    congrArg RangeLoop.range_table_items_ hTP
  have e3 : (rangeTableLoopTraced env data).range_index = _ :=
    congrArg RangeLoop.range_index hTP
  rw [List.length_replicate] at hla
  have hend : (rangeTableLoopTraced env data).range_index =
      (forLoop data.pos_matcher_data.range_tables_size (rangeTableBody data.pos_matcher_data)
        ⟨List.replicate data.pos_matcher_data.range_tables_size env.junk_range_table,
          List.replicate (forLoop data.pos_matcher_data.range_tables_size
            (rangeCountBody data.pos_matcher_data) 0 + data.pos_matcher_data.range_tables_size)
            env.junk_range, 0⟩).range_table_items_.length := by
    rw [e3, hidx, hla, hcount]
  refine ⟨r, _, hr, ?_, hitems, e2, hend, ?_⟩
  · rw [htab, e1]
  · rw [hlog, hend]

end PackedDataManager.Impl

/-- C18: with the expected format version, the recorded run of the two table
loops computes the arrays the function leaves, and: every store to the shared
conjugation array is to a cell below its length `sum k_i`, no (cell, field) is
stored to twice and each one below the length is stored to, and the running
index ends at `sum k_i`; every store to the shared range array, bounds and
terminators alike, is to a cell below its length `(sum n_i) + T`, no (cell,
field) is stored to twice and each one below the length is stored to, and the
running index ends at `(sum n_i) + T`; the start recorded for a token with
`k_i ≥ 1` and for every range table is an index inside its array. -/
theorem C18_stores_in_bounds_once (env : Env) (self : PackedDataManager.Impl)
    (data : SystemDictionaryData)
    (hd : self.system_dictionary_data_ = some data)
    (hv : data.format_version = env.kSystemDictionaryFormatVersion) :
    ∃ (r : Bool × PackedDataManager.Impl) (toks : List UserPOS.POSToken)
      (arr : List UserPOS.ConjugationType) (tabs : List (Option Nat)) (items : List Range),
      InitializeWithSystemDictionaryData env self = some r ∧
      r.2.pos_token_ = some toks ∧ r.2.conjugation_array_ = some arr ∧
      r.2.range_tables_ = some tabs ∧ r.2.range_table_items_ = some items ∧
      (posTokenLoopTraced env data).pos_token_ = toks ∧
      (posTokenLoopTraced env data).conjugation_array_.cells = arr ∧
      (rangeTableLoopTraced env data).range_tables_ = tabs ∧
      (rangeTableLoopTraced env data).range_table_items_.cells = items ∧
      arr.length = (data.pos_tokens.map (fun t => t.conjugation_forms.length)).sum ∧
      (∀ e, e ∈ (posTokenLoopTraced env data).conjugation_array_.log → e.1 < arr.length) ∧
      (posTokenLoopTraced env data).conjugation_array_.log.Nodup ∧
      (∀ (i : Nat) (f : ConjugationField), i < arr.length →
        (i, f) ∈ (posTokenLoopTraced env data).conjugation_array_.log) ∧
      (posTokenLoopTraced env data).conjugation_index = arr.length ∧
      items.length = (data.pos_matcher_data.range_tables.map (fun t => t.ranges.length)).sum +
        data.pos_matcher_data.range_tables.length ∧
      (∀ e, e ∈ (rangeTableLoopTraced env data).range_table_items_.log → e.1 < items.length) ∧
      (rangeTableLoopTraced env data).range_table_items_.log.Nodup ∧
      (∀ (i : Nat) (f : RangeField), i < items.length →
        (i, f) ∈ (rangeTableLoopTraced env data).range_table_items_.log) ∧
      (rangeTableLoopTraced env data).range_index = items.length ∧
      (∀ (i : Nat) (t : SystemDictionaryData.PosToken), data.pos_tokens[i]? = some t →
        1 ≤ t.conjugation_forms.length →
        ∃ tok start, toks[i]? = some tok ∧ tok.conjugation_form = some start ∧
          start < arr.length) ∧
      (∀ (i : Nat) (t : SystemDictionaryData.PosMatcherData.RangeTable),
        data.pos_matcher_data.range_tables[i]? = some t →
        ∃ start, tabs[i]? = some (some start) ∧ start < items.length) := by
  obtain ⟨r, arr, hr, hP1, hP2, hP3, hP4, hP5⟩ := posTokenLoopTraced_run env self data hd hv
  obtain ⟨r2, items, hr2, hR1, hR2, hR3, hR4, hR5⟩ :=
    rangeTableLoopTraced_run env self data hd hv
  obtain ⟨r3, toks, arr3, hr3, htok, harr, -, hla, htoks, hcells⟩ :=
    initialize_pos env self data hd hv
  obtain ⟨r4, tabs, items4, hr4, htab, hitems, -, hli, htabs, -, hsent⟩ :=
    initialize_range env self data hd hv
  have e2 : r2 = r := Option.some.inj (hr2.symm.trans hr)
  have e3 : r3 = r := Option.some.inj (hr3.symm.trans hr)
  have e4 : r4 = r := Option.some.inj (hr4.symm.trans hr)
  subst e2 e3 e4
  have ea : arr3 = arr := Option.some.inj (harr.symm.trans hP2)
  have ei : items4 = items := Option.some.inj (hitems.symm.trans hR2)
  subst ea ei
  have et : (posTokenLoopTraced env data).pos_token_ = toks :=
    Option.some.inj (hP1.symm.trans htok)
  have eb : (rangeTableLoopTraced env data).range_tables_ = tabs :=
    Option.some.inj (hR1.symm.trans htab)
  have hcf : conjugationFields.Nodup := by decide
  have hrf : rangeFields.Nodup := by decide
  obtain ⟨c1, c2, c3⟩ := storesUpTo_once conjugationFields hcf arr3.length
  obtain ⟨d1, d2, d3⟩ := storesUpTo_once rangeFields hrf items4.length
  refine ⟨r4, toks, arr3, tabs, items4, hr, htok, harr, htab, hitems, et, hP3, eb, hR3, hla,
    ?_, ?_, ?_, hP4, ?_, ?_, ?_, ?_, hR4, ?_, ?_⟩
  · rw [hP5]; exact c1
  · rw [hP5]; exact c2
  · intro i f hi
    rw [hP5]
    exact c3 i f hi (by cases f <;> simp [conjugationFields])
  · rw [hli, sum_map_succ]
  · rw [hR5]; exact d1
  · rw [hR5]; exact d2
  · intro i f hi
    rw [hR5]
    exact d3 i f hi (by cases f <;> simp [rangeFields])
  · intro i t hit hk
    have hne : ¬ t.conjugation_forms_size = 0 := by
      unfold SystemDictionaryData.PosToken.conjugation_forms_size
      omega
    have h0 : t.conjugation_forms[0]? = some t.conjugation_forms[0] :=
      List.getElem?_eq_getElem (by omega)
    refine ⟨_, ((data.pos_tokens.take i).map (fun u => u.conjugation_forms.length)).sum,
      htoks i t hit, ?_, ?_⟩
    · simp only [posTokenCell, hne, if_false]
    · exact lt_length_of_getElem? _ _ _ (hcells i t hit 0 _ h0)
  · intro i t hit
    refine ⟨_, htabs i t hit, ?_⟩
    have := lt_length_of_getElem? _ _ _ (hsent i t hit)
    omega

/-! ## The later theorems at concrete inputs -/

/-- C11 at `sampleZipEnv`, where the raw bytes `raw` and the compressed bytes
`gz` both parse to `sampleData`: the two entry points give the same result, a
successful load. -/
theorem C11_witness_raw_and_gz :
    sampleZipEnv.ParseFromString "raw" = (true, sampleData) ∧
    sampleZipEnv.ParseFromCodedStream kDefaultTotalBytesLimit "gz" = (true, sampleData) ∧
    PackedDataManager.Init sampleZipEnv { manager_impl_ := none } "raw" =
      PackedDataManager.InitWithZippedData sampleZipEnv { manager_impl_ := none } "gz" ∧
    (PackedDataManager.Init sampleZipEnv { manager_impl_ := none } "raw").map Prod.fst =
      some true := by
  refine ⟨rfl, rfl, ?_, by decide⟩
  exact (C11_zipped_path_same_reconstruction sampleZipEnv sampleData true "raw" "gz"
    rfl rfl).2.1 _ _

/-- C13 at `sampleGlobals` (empty slot, flag naming a mappable file whose bytes
parse): the call returns the new instance and stores it in the slot; with the
flag empty the call is fatal. -/
theorem C13_witness_load_and_unset_flag :
    sampleGlobals.g_data_manager = none ∧
    (∃ dm : PackedDataManager,
      PackedDataManager.GetUserPosManager sampleEnv sampleMmapOpen sampleGlobals =
        some (Outcome.returned dm { sampleGlobals with g_data_manager := some dm })) ∧
    PackedDataManager.GetUserPosManager sampleEnv sampleMmapOpen
        { g_data_manager := none, FLAGS_dataset := "" } =
      some (Outcome.fatal { g_data_manager := none, FLAGS_dataset := "" }) := by
  refine ⟨rfl, ?_, ?_⟩
  · obtain ⟨r, hr⟩ :=
      (packed_init_total sampleEnv PackedDataManager.PackedDataManager "packed").1
    have ht : r.1 = true := by
      have hc : (PackedDataManager.Init sampleEnv PackedDataManager.PackedDataManager
          "packed").map Prod.fst = some true := by decide
      rw [hr] at hc
      exact Option.some.inj hc
    exact ⟨r.2, (C13_empty_slot_load_or_fatal sampleEnv sampleMmapOpen sampleGlobals rfl).2.2.2.1
      "packed" r (by decide) rfl hr ht⟩
  · exact (C13_empty_slot_load_or_fatal sampleEnv sampleMmapOpen
      { g_data_manager := none, FLAGS_dataset := "" } rfl).1 rfl

/-- C14 at a slot filled by registration, the dataset flag unset: the call
returns the registered instance and leaves the state as it is. -/
theorem C14_witness_registered_instance :
    (RegisterPackedDataManager { g_data_manager := none, FLAGS_dataset := "" }
      (some PackedDataManager.PackedDataManager)).g_data_manager =
        some PackedDataManager.PackedDataManager ∧
    PackedDataManager.GetUserPosManager sampleEnv sampleMmapOpen
        (RegisterPackedDataManager { g_data_manager := none, FLAGS_dataset := "" }
          (some PackedDataManager.PackedDataManager)) =
      some (Outcome.returned PackedDataManager.PackedDataManager
        (RegisterPackedDataManager { g_data_manager := none, FLAGS_dataset := "" }
          (some PackedDataManager.PackedDataManager))) :=
  ⟨rfl, (C14_filled_slot_no_load _ PackedDataManager.PackedDataManager rfl).1
    sampleEnv sampleMmapOpen⟩

/-- C15 at the blob `MOZCdata`, valid for the magic `MOZC` with a header of 4
bytes, and the blob `XOZCdata`, which differs from it in the first byte: the
decoder rejects it, and the container `brokenMagicData` carrying it fails to
load. -/
theorem C15_witness_first_byte_changed :
    (DataManager.InitFromArray 4 sampleBindSections default "MOZCdata" "MOZC").1 = true ∧
    "XOZCdata" ≠ "MOZCdata" ∧
    DataManager.InitFromArray 4 sampleBindSections default "XOZCdata" "MOZC" =
      (false, default) ∧
    ∃ r : Bool × PackedDataManager.Impl,
      InitializeWithSystemDictionaryData (withBlobDecoder sampleEnv 4 sampleBindSections)
        (sampleImpl brokenMagicData) = some r ∧ r.1 = false := by
  have h := C15_magic_mismatch_rejected 4 sampleBindSections default "MOZCdata" "XOZCdata"
    "MOZC" (by decide) (by decide) (by decide) (by decide)
  refine ⟨by decide, by decide, h.1 default, ?_⟩
  obtain ⟨r, hr, hf, -⟩ := h.2.1 sampleEnv (sampleImpl brokenMagicData) brokenMagicData
    rfl rfl rfl rfl
  exact ⟨r, hr, hf⟩

/-- C16 at `oversizedBody`, a body of 64 MiB plus one byte, given raw and as
the decompression of `gz`: both loads return false. -/
theorem C16_witness_one_byte_over :
    67108864 < oversizedBody.length ∧ sampleUngzip "gz" = some oversizedBody ∧
    PackedDataManager.Init
        (withBudgetParsers sampleEnv sampleUngzip (fun _ => (true, sampleData)))
        { manager_impl_ := none } oversizedBody = some (false, { manager_impl_ := none }) ∧
    PackedDataManager.InitWithZippedData
        (withBudgetParsers sampleEnv sampleUngzip (fun _ => (true, sampleData)))
        { manager_impl_ := none } "gz" = some (false, { manager_impl_ := none }) := by
  have hbig : 67108864 < oversizedBody.length := by
    rw [oversizedBody, String.length_mk, List.length_replicate]
    omega
  have hz : sampleUngzip "gz" = some oversizedBody := by
    simp [sampleUngzip]
  have h := C16_oversized_body_rejected sampleEnv sampleUngzip (fun _ => (true, sampleData))
  exact ⟨hbig, hz, h.2.2.2.1 _ oversizedBody hbig, h.2.2.2.2 _ "gz" oversizedBody hz hbig⟩

/-- C17 at `sampleData`, whose rule ids are 1, 65536 and 70000: the table has
three entries, 1, 0 and 4464, and the matcher holds this table. -/
theorem C17_witness_three_rule_ids :
    (sampleImpl sampleData).system_dictionary_data_ = some sampleData ∧
    sampleData.format_version = sampleEnv.kSystemDictionaryFormatVersion ∧
    ∃ (r : Bool × PackedDataManager.Impl) (tab : List Nat) (tabs : List (Option Nat)),
      InitializeWithSystemDictionaryData sampleEnv (sampleImpl sampleData) = some r ∧
      r.2.rule_id_table_ = some tab ∧ tab.length = 3 ∧
      tab[0]? = some 1 ∧ tab[1]? = some 0 ∧ tab[2]? = some 4464 ∧
      r.2.pos_matcher_ = some { rule_id_table := tab, range_table := tabs } := by
  refine ⟨rfl, rfl, ?_⟩
  obtain ⟨r, tab, tabs, hr, ht, -, hlen, hcell, hmat, -⟩ :=
    C17_rule_id_table_and_matcher sampleEnv (sampleImpl sampleData) sampleData rfl rfl
  exact ⟨r, tab, tabs, hr, ht, hlen, (hcell 0 1 rfl).1, (hcell 1 65536 rfl).1,
    (hcell 2 70000 rfl).1, hmat⟩

/-- C18 at `sampleData`: the conjugation array has 3 cells and the range array
6, every recorded store is below these lengths, and the running indices end at
3 and 6. -/
theorem C18_witness_three_and_six_cells :
    (sampleImpl sampleData).system_dictionary_data_ = some sampleData ∧
    sampleData.format_version = sampleEnv.kSystemDictionaryFormatVersion ∧
    ∃ (r : Bool × PackedDataManager.Impl) (arr : List UserPOS.ConjugationType)
      (items : List Range),
      InitializeWithSystemDictionaryData sampleEnv (sampleImpl sampleData) = some r ∧
      r.2.conjugation_array_ = some arr ∧ r.2.range_table_items_ = some items ∧
      arr.length = 3 ∧ items.length = 6 ∧
      (∀ e, e ∈ (posTokenLoopTraced sampleEnv sampleData).conjugation_array_.log → e.1 < 3) ∧
      (∀ e, e ∈ (rangeTableLoopTraced sampleEnv sampleData).range_table_items_.log → e.1 < 6) ∧
      (posTokenLoopTraced sampleEnv sampleData).conjugation_index = 3 ∧
      (rangeTableLoopTraced sampleEnv sampleData).range_index = 6 := by
  refine ⟨rfl, rfl, ?_⟩
  obtain ⟨r, toks, arr, tabs, items, hr, -, harr, -, hitems, -, -, -, -, hla, hin, -, -, hidx,
    hli, hin2, -, -, hidx2, -, -⟩ :=
    C18_stores_in_bounds_once sampleEnv (sampleImpl sampleData) sampleData rfl rfl
  have h3 : arr.length = 3 := hla
  have h6 : items.length = 6 := hli
  rw [h3] at hin hidx
  rw [h6] at hin2 hidx2
  exact ⟨r, arr, items, hr, harr, hitems, h3, h6, hin, hin2, hidx, hidx2⟩

end packed

end mozc
